import Mathlib

/-!
Verification development for the Blocksmith-BR pack engine
(src/src-tauri/src/lib.rs, modules/pack_detector.rs, modules/file_mover.rs,
modules/pack_type.rs).

The Rust code is shallowly embedded: pure string/classification functions
become Lean functions over `List Char` / `String`; filesystem effects are
made explicit (an archive is a list of entries, the on-disk state is the
list of existing paths, extraction is a plan-then-apply pair).  Machine
details that no claim depends on are recorded in the doc comment of the
definition that abstracts them:
* Rust `to_lowercase` / `\s` / `\d` are modelled at ASCII granularity
  (`asciiLower`, `isWs`, `isDig`); all inputs of interest are ASCII.
* the `regex` crate's leftmost-first search of the ten version patterns of
  lib.rs is implemented by scanning candidate start positions left to
  right; each pattern is simple enough that greedy matching without
  backtracking is exact (any shorter candidate of `\d+(\.\d+)*` ends right
  before a digit or a dot-digit group, never before the character class the
  pattern requires next).
-/

namespace Blocksmith

/-- ASCII lower-casing of one character (model of Rust `to_lowercase` on the
ASCII inputs the engine deals with). -/
def asciiLower (c : Char) : Char :=
  if 'A' ≤ c ∧ c ≤ 'Z' then Char.ofNat (c.toNat + 32) else c

/-- Lower-case a character list. -/
def lowerL (l : List Char) : List Char := l.map asciiLower

/-- Lower-case a string (model of Rust `str::to_lowercase`). -/
def lowerStr (s : String) : String := String.mk (lowerL s.data)

/-- ASCII decimal digit (model of regex `\d` on ASCII input). -/
def isDig (c : Char) : Bool := '0' ≤ c ∧ c ≤ '9'

/-- Whitespace (model of regex `\s` / Rust `char::is_whitespace` on the
ASCII range). -/
def isWs (c : Char) : Bool := c = ' ' ∨ c = '\t' ∨ c = '\n' ∨ c = '\r'

/-- Is `pat` a prefix of `l`? -/
def isPreL : List Char → List Char → Bool
  | [], _ => true
  | _ :: _, [] => false
  | p :: ps, c :: cs => p = c && isPreL ps cs

/-- Does `l` end with `pat` (Rust `str::ends_with`)? -/
def endsWithL (pat l : List Char) : Bool := isPreL pat.reverse l.reverse

/-- Does `l` contain `pat` as a contiguous substring (Rust `str::contains`)? -/
def containsSubL (pat : List Char) : List Char → Bool
  | [] => isPreL pat []
  | c :: rest => isPreL pat (c :: rest) || containsSubL pat (c :: rest).tail

/-- String-level substring test. -/
def strContains (s pat : String) : Bool := containsSubL pat.data s.data

/-- String-level ends-with. -/
def strEndsWith (s pat : String) : Bool := endsWithL pat.data s.data

/-- String-level starts-with. -/
def strStartsWith (s pat : String) : Bool := isPreL pat.data s.data

/-- Split a character list at a separator character, keeping empty pieces
(Rust `str::split('/')`). -/
def splitOnCharAux (sep : Char) : List Char → List Char → List (List Char)
  | [], cur => [cur.reverse]
  | c :: rest, cur =>
    if c = sep then cur.reverse :: splitOnCharAux sep rest []
    else splitOnCharAux sep rest (c :: cur)

/-- Split a character list on a separator character. -/
def splitOnCharL (sep : Char) (l : List Char) : List (List Char) :=
  splitOnCharAux sep l []

/-- Split at any of several separator characters, keeping empty pieces
(Rust `str::split(|c| ...)`). -/
def splitAnyAux (seps : List Char) : List Char → List Char → List (List Char)
  | [], cur => [cur.reverse]
  | c :: rest, cur =>
    if seps.contains c then cur.reverse :: splitAnyAux seps rest []
    else splitAnyAux seps rest (c :: cur)

/-- Split at any of several separator characters. -/
def splitAnyL (seps : List Char) (l : List Char) : List (List Char) :=
  splitAnyAux seps l []

/-- Trim ASCII whitespace from both ends (Rust `str::trim`). -/
def trimWsL (l : List Char) : List Char :=
  ((l.dropWhile isWs).reverse.dropWhile isWs).reverse

/-- Drop all leading occurrences of one character
(Rust `str::trim_start_matches('/')`). -/
def dropLeading (c : Char) (l : List Char) : List Char :=
  l.dropWhile (· = c)

/-- Remove every trailing repetition of `pat`
(Rust `str::trim_end_matches(pat)`); fuel-based, the fuel `l.length` is
always enough because each step removes at least one character. -/
def trimEndAllAux (pat : List Char) : Nat → List Char → List Char
  | 0, l => l
  | n + 1, l =>
    if pat ≠ [] ∧ endsWithL pat l then
      trimEndAllAux pat n (l.take (l.length - pat.length))
    else l

/-- Remove every trailing repetition of `pat`. -/
def trimEndAll (pat : String) (l : List Char) : List Char :=
  trimEndAllAux pat.data l.length l

/-- Longest digit run at the head of the list (regex `\d+`, greedy). -/
def spanDigits (l : List Char) : List Char × List Char :=
  (l.takeWhile isDig, l.dropWhile isDig)

/-- Greedy match of `(\.\d+)*`: consume as many `.digits` groups as
possible, returning the consumed characters and the rest.  Fuel-based;
`l.length` is enough fuel since each group consumes at least two
characters. -/
def dotGroupsAux : Nat → List Char → List Char × List Char
  | 0, l => ([], l)
  | n + 1, l =>
    match l with
    | '.' :: rest =>
      match spanDigits rest with
      | ([], _) => ([], l)
      | (ds, rest2) =>
        let pr := dotGroupsAux n rest2
        ('.' :: (ds ++ pr.1), pr.2)
    | _ => ([], l)

/-- Greedy match of `(\.\d+)*`. -/
def dotGroups (l : List Char) : List Char × List Char :=
  dotGroupsAux l.length l

/-- Match `\d+(\.\d+)*` at the head of the list, returning the matched text
and the rest; `none` when the list does not start with a digit. -/
def capNumR (l : List Char) : Option (List Char × List Char) :=
  match spanDigits l with
  | ([], _) => none
  | (ds, rest) =>
    let gr := dotGroups rest
    some (ds ++ gr.1, gr.2)

/-- Match `\d+(\.\d+)+` (at least one dot group) at the head of the list. -/
def numDotPlusR (l : List Char) : Option (List Char × List Char) :=
  match spanDigits l with
  | ([], _) => none
  | (ds, rest) =>
    match dotGroups rest with
    | ([], _) => none
    | (g, rest2) => some (ds ++ g, rest2)

/-- Head of the list is `'('`. -/
def headIsOpenParen : List Char → Bool
  | '(' :: _ => true
  | _ => false

/-- Drop leading whitespace (regex `\s*`). -/
def dropWs (l : List Char) : List Char := l.dropWhile isWs

/-- Try the regex `EXTRACT_VERSION_1 = v?\.(\d+(?:\.\d+)*)` of lib.rs at one
start position; returns the capture group. -/
def p1At : List Char → Option (List Char)
  | 'v' :: '.' :: rest => (capNumR rest).map (·.1)
  | '.' :: rest => (capNumR rest).map (·.1)
  | _ => none

/-- Try `EXTRACT_VERSION_2 = v(\d+(?:\.\d+)*)` at one start position. -/
def p2At : List Char → Option (List Char)
  | 'v' :: rest => (capNumR rest).map (·.1)
  | _ => none

/-- Try `EXTRACT_VERSION_3 = \s(\d+(?:\.\d+)+)\s*\(` at one start position. -/
def p3At : List Char → Option (List Char)
  | [] => none
  | c :: rest =>
    if isWs c then
      match numDotPlusR rest with
      | some (cap, rest2) =>
        if headIsOpenParen (dropWs rest2) then some cap else none
      | none => none
    else none

/-- Try `EXTRACT_VERSION_4 = \s(\d+(?:\.\d+)+)$` at one start position. -/
def p4At : List Char → Option (List Char)
  | [] => none
  | c :: rest =>
    if isWs c then
      match numDotPlusR rest with
      | some (cap, rest2) => if rest2.isEmpty then some cap else none
      | none => none
    else none

/-- Try `EXTRACT_VERSION_5 = \s(\d+)\s*\(` at one start position. -/
def p5At : List Char → Option (List Char)
  | [] => none
  | c :: rest =>
    if isWs c then
      match spanDigits rest with
      | ([], _) => none
      | (ds, rest2) => if headIsOpenParen (dropWs rest2) then some ds else none
    else none

/-- Try `EXTRACT_VERSION_6 = \s(\d+(?:\.\d+)*)\s` at one start position. -/
def p6At : List Char → Option (List Char)
  | [] => none
  | c :: rest =>
    if isWs c then
      match capNumR rest with
      | some (cap, rest2) =>
        match rest2 with
        | c2 :: _ => if isWs c2 then some cap else none
        | [] => none
      | none => none
    else none

/-- Leftmost match: try the single-position matcher at every start position
from the left (the regex crate returns the match with the smallest start
position). -/
def scanFirst (f : List Char → Option (List Char)) : List Char → Option (List Char)
  | [] => f []
  | c :: rest =>
    match f (c :: rest) with
    | some r => some r
    | none => scanFirst f rest

/-- Try a priority list of patterns, returning the first pattern's leftmost
capture (lib.rs `extract_version_from_name` loop). -/
def tryPats : List (List Char → Option (List Char)) → List Char → Option (List Char)
  | [], _ => none
  | p :: ps, l =>
    match scanFirst p l with
    | some cap => some cap
    | none => tryPats ps l

/-- lib.rs `extract_version_from_name`: lower-case the input, try the six
pre-compiled patterns in order, return the first capture. -/
def extract_version_from_name (name : String) : Option String :=
  (tryPats [p1At, p2At, p3At, p4At, p5At, p6At] (lowerL name.data)).map
    (fun cap => String.mk cap)

/-- Match `\d+(\.\d+)*$` (whole rest of the list). -/
def numGroupsEnd (l : List Char) : Bool :=
  match capNumR l with
  | some (_, rest) => rest.isEmpty
  | none => false

/-- Match `\d+(\.\d+)+$` (whole rest of the list). -/
def numGroupsPlusEnd (l : List Char) : Bool :=
  match numDotPlusR l with
  | some (_, rest) => rest.isEmpty
  | none => false

/-- Match `\d+$` (whole rest of the list). -/
def digitsEnd (l : List Char) : Bool :=
  match spanDigits l with
  | ([], _) => false
  | (_, rest) => rest.isEmpty

/-- Whole-suffix match of `VERSION_PATTERN_1 = \s+v?\.\d+(\.\d+)*$`. -/
def verTail1 (l : List Char) : Bool :=
  match List.span isWs l with
  | ([], _) => false
  | (_, rest) =>
    match rest with
    | 'v' :: '.' :: r => numGroupsEnd r
    | '.' :: r => numGroupsEnd r
    | _ => false

/-- Whole-suffix match of `VERSION_PATTERN_2 = \s+v\d+(\.\d+)*$`. -/
def verTail2 (l : List Char) : Bool :=
  match List.span isWs l with
  | ([], _) => false
  | (_, rest) =>
    match rest with
    | 'v' :: r => numGroupsEnd r
    | _ => false

/-- Whole-suffix match of `VERSION_PATTERN_3 = \s+\d+(\.\d+)+$`. -/
def verTail3 (l : List Char) : Bool :=
  match List.span isWs l with
  | ([], _) => false
  | (_, rest) => numGroupsPlusEnd rest

/-- Whole-suffix match of `VERSION_PATTERN_4 = \s+\d+$`. -/
def verTail4 (l : List Char) : Bool :=
  match List.span isWs l with
  | ([], _) => false
  | (_, rest) => digitsEnd rest

/-- `Regex::replace` of an end-anchored pattern with the empty string: find
the leftmost start position whose whole suffix matches, and keep only the
part before it; `none` when the pattern does not match. -/
def stripEndMatch (m : List Char → Bool) : List Char → Option (List Char)
  | [] => if m [] then some [] else none
  | c :: rest =>
    if m (c :: rest) then some []
    else
      match stripEndMatch m rest with
      | some k => some (c :: k)
      | none => none

/-- The suffix list of lib.rs `extract_base_name`, in source order. -/
def baseSuffixes : List String :=
  [" (addon)", "(addon)", " (add-on)", "(add-on)",
   " (resource)", "(resource)", " (resources)", "(resources)",
   " (behavior)", "(behavior)", " (behaviour)", "(behaviour)",
   " (bp)", "(bp)", " (rp)", "(rp)",
   " (skin)", "(skin)", " (skins)", "(skins)",
   " (template)", "(template)", " (world_template)", "(world_template)",
   " (mashup)", "(mashup)", " (mash-up)", "(mash-up)"]

/-- Apply the first version pattern that changes the string; the code breaks
out of the loop after the first pattern whose replacement changed the
length. -/
def applyFirstVer (l : List Char) : List Char :=
  match stripEndMatch verTail1 l with
  | some k => k
  | none =>
    match stripEndMatch verTail2 l with
    | some k => k
    | none =>
      match stripEndMatch verTail3 l with
      | some k => k
      | none =>
        match stripEndMatch verTail4 l with
        | some k => k
        | none => l

/-- lib.rs `extract_base_name`: lower-case, strip the type suffixes (the
source loop has no break, so every suffix in list order that still matches
is stripped), strip one trailing version token, trim.  The source truncates
by byte length; character truncation agrees on the ASCII suffixes used
here. -/
def extract_base_name (name : String) : String :=
  let step1 := lowerL name.data
  let afterSuf := baseSuffixes.foldl
    (fun acc suf =>
      if endsWithL suf.data acc then acc.take (acc.length - suf.length) else acc)
    step1
  String.mk (trimWsL (applyFirstVer afterSuf))

/-- The type-suffix list of lib.rs `extract_version_from_path`, in source
order. -/
def pathSuffixes : List String :=
  [" (ADDON)", "(ADDON)", " (addon)", "(addon)",
   " (RESOURCE)", "(RESOURCE)", " (resource)", "(resource)",
   " (SKIN)", "(SKIN)", " (skin)", "(skin)",
   " (TEMPLATE)", "(TEMPLATE)", " (template)", "(template)",
   " (MASHUP)", "(MASHUP)", " (mashup)", "(mashup)"]

/-- Strip the first matching suffix of the list (the loop breaks after the
first match). -/
def stripOneSuffix : List String → List Char → List Char
  | [], l => l
  | s :: rest, l =>
    if endsWithL s.data l then l.take (l.length - s.length)
    else stripOneSuffix rest l

/-- lib.rs `extract_version_from_path`: take the path's last component,
strip the known archive extensions (each `trim_end_matches` removes every
trailing repetition), try `extract_version_from_name`, and on failure strip
one type suffix (case preserved) and retry. -/
def extract_version_from_path (path : String) : Option String :=
  let name := (splitAnyL ['/', '\\'] path.data).getLastD path.data
  let noExt := trimEndAll ".mctemplate" (trimEndAll ".mcaddon" (trimEndAll ".mcpack" name))
  match extract_version_from_name (String.mk noExt) with
  | some v => some v
  | none => extract_version_from_name (String.mk (stripOneSuffix pathSuffixes noExt))

/-- pack_type.rs `PackType`: closed enumeration of pack kinds. -/
inductive PackType where
  | BehaviorPack
  | ResourcePack
  | SkinPack
  | SkinPack4D
  | WorldTemplate
  | MashupPack
  | Unknown
  deriving DecidableEq, Repr

/-- Minimal JSON value model for the manifest data the engine reads
(`serde_json::Value`); numbers are modelled as integers, which covers every
manifest field the code consumes (`as_u64` on version arrays). -/
inductive Json where
  | null
  | bool (b : Bool)
  | num (n : Int)
  | str (s : String)
  | arr (xs : List Json)
  | obj (kvs : List (String × Json))

/-- `Value::get(key)` on an object; `None` on every other variant. -/
def Json.get (j : Json) (key : String) : Option Json :=
  match j with
  | .obj kvs =>
    match kvs.find? (fun kv => kv.1 == key) with
    | some kv => some kv.2
    | none => none
  | _ => none

/-- `Value::as_array`. -/
def Json.as_array : Json → Option (List Json)
  | .arr xs => some xs
  | _ => none

/-- `Value::as_str`. -/
def Json.as_str : Json → Option String
  | .str s => some s
  | _ => none

/-- `Value::as_u64`: non-negative integers only. -/
def Json.as_u64 : Json → Option Nat
  | .num n => if 0 ≤ n then some n.toNat else none
  | _ => none

/-- One archive entry.  The filesystem side effects of reading it are made
explicit: `json` is the parsed result of `read_to_string` + `serde_json`
(`none` when either fails), `b64` is the base64 encoding of its raw bytes
when `read_to_end` succeeds, and `isSymlink` models the unix-mode symlink
test of `extract_pack_to_destination`. -/
structure ZipEntry where
  name : String
  json : Option Json := none
  b64 : Option String := none
  isSymlink : Bool := false

/-- A readable zip archive: its entries in index order.  `by_name` models
the zip crate's name lookup (duplicate entry names do not occur in the
archives the claims quantify over). -/
structure Archive where
  entries : List ZipEntry

/-- Name lookup in the archive. -/
def Archive.by_name (a : Archive) (n : String) : Option ZipEntry :=
  a.entries.find? (fun e => e.name == n)

/-- Outcome of `fs::File::open` + `ZipArchive::new` on a path: the file may
be unopenable, openable but not a readable zip, or a readable archive. -/
inductive FileAccess where
  | unreadable
  | notZip
  | archive (a : Archive)

/-- pack_type.rs `PackInfo` (the pack candidate record). -/
structure PackInfo where
  path : String
  name : String
  pack_type : PackType
  uuid : Option String
  version : Option String
  extracted : Bool
  icon_base64 : Option String
  subfolder : Option String
  folder_size : Option Nat
  folder_size_formatted : Option String
  needs_attention : Option Bool
  attention_message : Option String
  is_installed : Option Bool
  is_update : Option Bool
  installed_version : Option String
  deriving DecidableEq, Repr

/-- lib.rs `InstalledPackInfo`: one installed pack scanned from a
destination folder. -/
structure InstalledPackInfo where
  uuid : Option String
  name : String
  pack_type : PackType
  version : Option String
  path : String
  folder_name : String
  deriving DecidableEq, Repr

/-- Rust `Path::file_stem().unwrap_or("Unknown")`: the last path component
(separators `/` and `\`), with the extension after the last dot removed
unless that dot is the first character. -/
def dropAfterLastDot (l : List Char) : List Char :=
  match (l.reverse).dropWhile (· ≠ '.') with
  | [] => l
  | _ :: rest => if rest = [] then l else rest.reverse

/-- File stem of a path, `"Unknown"` when the path has no file name. -/
def fileStemOr (path : String) : String :=
  match (splitAnyL ['/', '\\'] path.data).getLastD path.data with
  | [] => "Unknown"
  | name => String.mk (dropAfterLastDot name)

/-- Keep the first occurrence of each element (models collecting into a
`HashSet`; only membership and cardinality of the result are relied on,
since a `HashSet`'s iteration order is arbitrary). -/
def dedupKeepFirstAux : List String → List String → List String
  | acc, [] => acc.reverse
  | acc, x :: rest =>
    if acc.contains x then dedupKeepFirstAux acc rest
    else dedupKeepFirstAux (x :: acc) rest

/-- Keep the first occurrence of each element. -/
def dedupKeepFirst (l : List String) : List String := dedupKeepFirstAux [] l

/-- pack_detector.rs `is_mashup_name`. -/
def is_mashup_name (name : String) : Bool :=
  let l := lowerStr name
  strContains l "mashup" || strContains l "mash-up" || strContains l "mash up"

/-- The suffix list of pack_detector.rs `clean_pack_name`, in source
order. -/
def cleanSuffixes : List String :=
  [" (addon)", "(addon)", " (ADDON)", "(ADDON)", " (Addon)", "(Addon)",
   " (behavior)", "(behavior)", " (BEHAVIOR)", "(BEHAVIOR)",
   " (resource)", "(resource)", " (RESOURCE)", "(RESOURCE)",
   " (resources)", "(resources)", " (RESOURCES)", "(RESOURCES)",
   " (bp)", "(bp)", " (BP)", "(BP)", " (rp)", "(rp)", " (RP)", "(RP)",
   " (world_template)", "(world_template)", " (WORLD_TEMPLATE)", "(WORLD_TEMPLATE)",
   " (template)", "(template)", " (TEMPLATE)", "(TEMPLATE)",
   " (skin_pack)", "(skin_pack)", " (SKIN_PACK)", "(SKIN_PACK)",
   " (skin)", "(skin)", " (SKIN)", "(SKIN)"]

/-- The first-match strip loop of `clean_pack_name`: compare lower-cased,
strip the suffix's length, break. -/
def cleanAux : List String → List Char → List Char
  | [], l => l
  | s :: rest, l =>
    if endsWithL (lowerL s.data) (lowerL l) then l.take (l.length - s.length)
    else cleanAux rest l

/-- pack_detector.rs `clean_pack_name`. -/
def clean_pack_name (name : String) : String :=
  String.mk (trimWsL (cleanAux cleanSuffixes name.data))

/-- pack_detector.rs `extract_uuid`: `header.uuid` as a string. -/
def extract_uuid (j : Json) : Option String :=
  match (j.get "header").bind (fun h => h.get "uuid") with
  | some u => u.as_str
  | none => none

/-- pack_detector.rs `extract_version` (the manifest reader, distinct from
the regex heuristics of lib.rs): `header.version`, either a dotted array of
integers joined with `.` or a bare string. -/
def extract_version (j : Json) : Option String :=
  match (j.get "header").bind (fun h => h.get "version") with
  | some v =>
    match v.as_array with
    | some arr =>
      some (String.intercalate "." ((arr.filterMap Json.as_u64).map (fun n => toString n)))
    | none => v.as_str
  | none => none

/-- First recognized module type in a `modules` array (the source loop
returns at the first match and skips unrecognized or untyped modules). -/
def firstPackTypeInModules : List Json → Option PackType
  | [] => none
  | m :: rest =>
    match (m.get "type").bind Json.as_str with
    | some t =>
      if t == "data" then some .BehaviorPack
      else if t == "resources" then some .ResourcePack
      else if t == "world_template" then some .WorldTemplate
      else if t == "skin_pack" then some .SkinPack
      else if t == "script" then some .BehaviorPack
      else firstPackTypeInModules rest
    | none => firstPackTypeInModules rest

/-- The header fallback of `determine_pack_type`: `scriptEngineVersion`
capability, then behavior/behaviour/addon substrings of the header name. -/
def headerFallbackType (j : Json) : PackType :=
  match j.get "header" with
  | some header =>
    if (match (header.get "capabilities").bind Json.as_array with
        | some caps => caps.any (fun c => c.as_str == some "scriptEngineVersion")
        | none => false) then .BehaviorPack
    else
      match (header.get "name").bind Json.as_str with
      | some name =>
        if strContains (lowerStr name) "behavior" || strContains (lowerStr name) "behaviour" ||
            strContains (lowerStr name) "addon" then
          .BehaviorPack
        else .Unknown
      | none => .Unknown
  | none => .Unknown

/-- pack_detector.rs `determine_pack_type`. -/
def determine_pack_type (j : Json) : PackType :=
  match (j.get "modules").bind Json.as_array with
  | some mods =>
    match firstPackTypeInModules mods with
    | some pt => pt
    | none => headerFallbackType j
  | none => headerFallbackType j

/-- pack_detector.rs `check_4d_in_archive`: any entry whose lower-cased
name contains "geometry" and ends in ".json". -/
def check_4d_in_archive (a : Archive) : Bool :=
  a.entries.any (fun e =>
    let n := lowerStr e.name
    strContains n "geometry" && strEndsWith n ".json")

/-- pack_detector.rs `check_4d_special_files`: readme/instructions text
files, and more than one distinct top-level folder whose path contains
"geometry". -/
def check_4d_special_files (a : Archive) : Bool × Option String :=
  let has_readme := a.entries.any (fun e =>
    let n := lowerStr e.name
    (strContains n "readme" || strContains n "instructions" || strContains n "install") &&
      (strEndsWith n ".txt" || strEndsWith n ".md"))
  let geoFolders := dedupKeepFirst (a.entries.filterMap (fun e =>
    let n := lowerStr e.name
    if strContains n "geometry" && n.data.contains '/' then
      ((splitOnCharL '/' n.data).head?).map String.mk
    else none))
  let multiple := geoFolders.length > 1
  if has_readme || multiple then
    let msgs :=
      (if has_readme then ["Contains instructions/readme"] else []) ++
      (if multiple then ["Multiple geometry folders detected"] else []) ++
      ["May require manual setup", "SkinMaster may not work with this pack"]
    (true, some (String.intercalate ". " msgs ++ "."))
  else (false, none)

/-- Directory part of an entry name via `rfind('/')`, skipping root-level
names and empty directories (the `!folder.is_empty()` test of
`detect_subfolders`). -/
def dirOf (n : String) : Option String :=
  match splitOnCharL '/' n.data with
  | [] => none
  | [_] => none
  | parts =>
    let folder := String.intercalate "/" (parts.dropLast.map String.mk)
    if folder == "" then none else some folder

/-- Directory part via `rfind('/')` with no emptiness filtering (the
skins.json subfolder computation of `scan_single_pack`). -/
def dirOfRaw (n : String) : Option String :=
  match splitOnCharL '/' n.data with
  | [] => none
  | [_] => none
  | parts => some (String.intercalate "/" (parts.dropLast.map String.mk))

/-- The distinct folders containing a `manifest.json`-suffixed entry, in
first-occurrence order (models the `HashSet`; order is later fixed by the
sort). -/
def manifestFoldersOf (a : Archive) : List String :=
  dedupKeepFirst (a.entries.filterMap (fun e =>
    if strEndsWith e.name "manifest.json" then dirOf e.name else none))

/-- Does the archive have a root-level `manifest.json`-suffixed entry? -/
def hasRootManifest (a : Archive) : Bool :=
  a.entries.any (fun e =>
    strEndsWith e.name "manifest.json" && !(e.name.data.contains '/'))

/-- Does a manifest JSON declare a `world_template` module? -/
def hasWorldTemplateModule (j : Json) : Bool :=
  match (j.get "modules").bind Json.as_array with
  | some mods => mods.any (fun m => ((m.get "type").bind Json.as_str) == some "world_template")
  | none => false

/-- Is the archive a world template: some root manifest entry parses and
declares a `world_template` module. -/
def isWorldTemplateArchive (a : Archive) : Bool :=
  a.entries.any (fun e =>
    strEndsWith e.name "manifest.json" && !(e.name.data.contains '/') &&
      (match e.json with
       | some j => hasWorldTemplateModule j
       | none => false))

/-- One step of the subfolder-collection loop of `detect_subfolders`; the
state is (seen, collected).  In the two-component case both the
recognized-container branch and the unknown-container branch of the source
push the folder itself, so they are merged here. -/
def subfolderStep (is_wt : Bool) (st : List String × List String) (folder : String) :
    List String × List String :=
  let seen := st.1
  let acc := st.2
  let parts := splitOnCharL '/' folder.data
  if parts.length == 1 then
    if seen.contains folder then st else (folder :: seen, acc ++ [folder])
  else if parts.length == 2 then
    let container := lowerStr (String.mk (parts.headD []))
    if is_wt && (container == "behavior_packs" || container == "behaviour_packs" ||
        container == "resource_packs") then st
    else if seen.contains folder then st
    else (folder :: seen, acc ++ [folder])
  else
    let container := lowerStr (String.mk (parts.headD []))
    if is_wt && (container == "behavior_packs" || container == "behaviour_packs" ||
        container == "resource_packs") then st
    else
      let nested := String.mk (parts.headD []) ++ "/" ++ String.mk (parts.getD 1 [])
      if seen.contains nested then st
      else (nested :: seen, acc ++ [nested])

/-- The behavior-pack test of the `detect_subfolders` sort comparator. -/
def sortIsBehaviorPack (s : String) : Bool :=
  strContains s "behavior" || strContains s "behaviour" || strContains s "ppack0" ||
    strContains s "/bp0" || strContains s "/bp1" || strEndsWith s "pack0" ||
    (strContains s "ppack" && strContains s "0")

/-- Byte-lexicographic comparison of two character lists (Rust `str::cmp`;
code-point order equals UTF-8 byte order). -/
def lexCompare : List Char → List Char → Ordering
  | [], [] => .eq
  | [], _ :: _ => .lt
  | _ :: _, [] => .gt
  | x :: xs, y :: ys => if x < y then .lt else if y < x then .gt else lexCompare xs ys

/-- The sort comparator of `detect_subfolders`: behavior-type folders
first, ties by case-insensitive path comparison. -/
def cmpFolders (a b : String) : Ordering :=
  let al := lowerStr a
  let bl := lowerStr b
  let abp := sortIsBehaviorPack al
  let bbp := sortIsBehaviorPack bl
  if abp && !bbp then .lt
  else if !abp && bbp then .gt
  else lexCompare al.data bl.data

/-- Insert into a sorted list, before the first element that does not
compare `gt` (a stable insertion sort, matching Rust's stable
`sort_by`). -/
def insertOrd (cmp : String → String → Ordering) (x : String) : List String → List String
  | [] => [x]
  | y :: ys => if cmp x y == Ordering.gt then y :: insertOrd cmp x ys else x :: y :: ys

/-- Stable insertion sort by a comparator. -/
def insSortBy (cmp : String → String → Ordering) : List String → List String
  | [] => []
  | x :: rest => insertOrd cmp x (insSortBy cmp rest)

/-- pack_detector.rs `detect_subfolders`. -/
def detect_subfolders (a : Archive) : List String :=
  let is_wt := isWorldTemplateArchive a
  let subs := ((manifestFoldersOf a).foldl (subfolderStep is_wt) ([], [])).2
  if is_wt && hasRootManifest a then []
  else insSortBy cmpFolders subs

/-- The name-based pack-type fallback of `get_pack_info_from_subfolder`
(used both when the manifest is missing/unparseable and when it yields
`Unknown`). -/
def subfolderFallbackType (subfolder : String) : PackType :=
  let sl := lowerStr subfolder
  if strContains sl "behavior" || strContains sl "behaviour" || sl == "ppack0" ||
      strEndsWith sl "/ppack0" then .BehaviorPack
  else if strContains sl "resource" || sl == "ppack1" || strEndsWith sl "/ppack1" then
    .ResourcePack
  else .Unknown

/-- pack_detector.rs `get_pack_info_from_subfolder`. -/
def get_pack_info_from_subfolder (a : Archive) (subfolder : String) :
    PackType × Option String × Option String :=
  match a.by_name (subfolder ++ "/manifest.json") with
  | some e =>
    match e.json with
    | some j =>
      let pt := determine_pack_type j
      if pt == .Unknown then (subfolderFallbackType subfolder, extract_uuid j, extract_version j)
      else (pt, extract_uuid j, extract_version j)
    | none => (subfolderFallbackType subfolder, none, none)
  | none => (subfolderFallbackType subfolder, none, none)

/-- pack_detector.rs `get_pack_info_from_archive`: the root manifest. -/
def get_pack_info_from_archive (a : Archive) :
    PackType × Option String × Option String :=
  match a.by_name "manifest.json" with
  | some e =>
    match e.json with
    | some j => (determine_pack_type j, extract_uuid j, extract_version j)
    | none => (.Unknown, none, none)
  | none => (.Unknown, none, none)

/-- The exact-name icon loop of `extract_icon_from_archive` (a read failure
falls through to the next candidate name). -/
def tryIconNames (a : Archive) : List String → Option String
  | [] => none
  | n :: rest =>
    match a.by_name n with
    | some e =>
      match e.b64 with
      | some b => some b
      | none => tryIconNames a rest
    | none => tryIconNames a rest

/-- pack_detector.rs `extract_icon_from_archive`: fixed candidate names at
the pack root (or subfolder root), then — only for the empty subfolder — the
first root-level entry whose lower-cased name ends with a known icon
name. -/
def extract_icon_from_archive (a : Archive) (subfolder : String) : Option String :=
  let names :=
    if subfolder == "" then
      ["pack_icon.png", "Pack_Icon.png", "world_icon.jpeg", "world_icon.jpg"]
    else
      [subfolder ++ "/pack_icon.png", subfolder ++ "/Pack_Icon.png",
       subfolder ++ "/world_icon.jpeg", subfolder ++ "/world_icon.jpg"]
  match tryIconNames a names with
  | some b => some b
  | none =>
    if subfolder == "" then
      match a.entries.find? (fun e =>
        let n := lowerStr e.name
        (strEndsWith n "pack_icon.png" || strEndsWith n "world_icon.jpeg" ||
          strEndsWith n "world_icon.jpg") && !(n.data.contains '/')) with
      | some e => e.b64
      | none => none
    else none

/-- Does the archive contain a skins.json entry (exact root name, or any
entry whose name ends with "skins.json")? -/
def hasSkinsJson (a : Archive) : Bool :=
  (a.by_name "skins.json").isSome || a.entries.any (fun e => strEndsWith e.name "skins.json")

/-- The subfolder recorded for a nested skins.json: the directory part of
the first entry ending in "skins.json", none when skins.json is at the
root. -/
def skinsSubfolder (a : Archive) : Option String :=
  if (a.by_name "skins.json").isSome then none
  else
    match a.entries.find? (fun e => strEndsWith e.name "skins.json") with
    | some e => dirOfRaw e.name
    | none => none

/-- pack_detector.rs `process_multi_pack_archive`. -/
def process_multi_pack_archive (path : String) (a : Archive) (subfolders : List String) :
    List PackInfo :=
  let base_filename := fileStemOr path
  let cleaned := clean_pack_name base_filename
  let is_mashup := is_mashup_name base_filename
  let packs := subfolders.map (fun sf =>
    let info := get_pack_info_from_subfolder a sf
    { path := path, name := cleaned,
      pack_type := if is_mashup then PackType.MashupPack else info.1,
      uuid := info.2.1, version := info.2.2, extracted := false,
      icon_base64 := extract_icon_from_archive a sf, subfolder := some sf,
      folder_size := none, folder_size_formatted := none, needs_attention := none,
      attention_message := none, is_installed := none, is_update := none,
      installed_version := none })
  if packs.isEmpty then
    let info := get_pack_info_from_archive a
    [{ path := path, name := cleaned, pack_type := info.1, uuid := info.2.1,
       version := info.2.2, extracted := false,
       icon_base64 := extract_icon_from_archive a "", subfolder := none,
       folder_size := none, folder_size_formatted := none, needs_attention := none,
       attention_message := none, is_installed := none, is_update := none,
       installed_version := none }]
  else packs

/-- pack_detector.rs `scan_single_pack`: open + zip failures yield the
empty list; a skins.json entry anywhere makes the archive one skin pack
(4D when a geometry JSON exists); otherwise multi-pack subfolders are
detected, and failing that the root manifest governs the whole archive,
with the world-template → mash-up rename override. -/
def scan_single_pack (path : String) (f : FileAccess) : List PackInfo :=
  match f with
  | .unreadable => []
  | .notZip => []
  | .archive a =>
    let filename := fileStemOr path
    let is_mashup := is_mashup_name filename
    let cleaned := clean_pack_name filename
    if hasSkinsJson a then
      let is4d := check_4d_in_archive a
      let att := if is4d then check_4d_special_files a else (false, none)
      [{ path := path, name := cleaned,
         pack_type := if is4d then PackType.SkinPack4D else PackType.SkinPack,
         uuid := none, version := none, extracted := false,
         icon_base64 := extract_icon_from_archive a "", subfolder := skinsSubfolder a,
         folder_size := none, folder_size_formatted := none,
         needs_attention := some att.1, attention_message := att.2,
         is_installed := none, is_update := none, installed_version := none }]
    else
      let subs := detect_subfolders a
      if !subs.isEmpty then process_multi_pack_archive path a subs
      else
        let info := get_pack_info_from_archive a
        [{ path := path, name := cleaned,
           pack_type := if is_mashup && info.1 == PackType.WorldTemplate then
             PackType.MashupPack else info.1,
           uuid := info.2.1, version := info.2.2, extracted := false,
           icon_base64 := extract_icon_from_archive a "", subfolder := none,
           folder_size := none, folder_size_formatted := none, needs_attention := none,
           attention_message := none, is_installed := none, is_update := none,
           installed_version := none }]

/-- Last index of an installed pack with the given uuid (the source
collects `(uuid, idx)` pairs into a `HashMap`, so a later index overwrites
an earlier one). -/
def lookupUuidIdx (installed : List InstalledPackInfo) (u : String) : Option Nat :=
  installed.enum.foldl
    (fun acc p => if p.2.uuid == some u then some p.1 else acc) none

/-- Last index of an installed pack with the given `(pack_type, base_name)`
identity key. -/
def lookupBaseIdx (installed : List InstalledPackInfo) (key : PackType × String) : Option Nat :=
  installed.enum.foldl
    (fun acc p =>
      if p.2.pack_type == key.1 && extract_base_name p.2.name == key.2 then some p.1
      else acc)
    none

/-- The identity lookup of `compute_pack_status`: a candidate with a uuid
is looked up only in the uuid map (no fallback); a candidate without one is
looked up by `(pack_type, base name)`. -/
def lookupInstalled (installed : List InstalledPackInfo) (pack : PackInfo) : Option Nat :=
  match pack.uuid with
  | some u => lookupUuidIdx installed u
  | none => lookupBaseIdx installed (pack.pack_type, extract_base_name pack.name)

/-- The candidate-side version resolution of `compute_pack_status`: under a
uuid match, name/path-derived versions are preferred over the declared one;
otherwise the declared version comes first. -/
def resolvedNewVer (uuid_match : Bool) (pack : PackInfo) : Option String :=
  if uuid_match then
    match extract_version_from_name pack.name with
    | some v => some v
    | none =>
      match extract_version_from_path pack.path with
      | some v => some v
      | none => pack.version
  else
    match pack.version with
    | some v => some v
    | none =>
      match extract_version_from_name pack.name with
      | some v => some v
      | none => extract_version_from_path pack.path

/-- The installed-side version resolution of `compute_pack_status` (the
uuid-match branch reads the folder name, the other branch the manifest
display name). -/
def resolvedOldVer (uuid_match : Bool) (inst : InstalledPackInfo) : Option String :=
  if uuid_match then
    match extract_version_from_name inst.folder_name with
    | some v => some v
    | none =>
      match extract_version_from_path inst.path with
      | some v => some v
      | none => inst.version
  else
    match inst.version with
    | some v => some v
    | none =>
      match extract_version_from_name inst.name with
      | some v => some v
      | none => extract_version_from_path inst.path

/-- The size-difference test `bigger/smaller > 1.1` of
`compute_pack_status`, as an exact rational comparison (the source divides
two `u64`s as `f64`; division by zero yields infinity and is covered by
the same inequality). -/
def ratioExceeds (new_size old_size : Nat) : Bool :=
  if new_size > old_size then 10 * new_size > 11 * old_size
  else 10 * old_size > 11 * new_size

/-- The per-candidate body of lib.rs `compute_pack_status`.  `sizeOf`
models `calculate_folder_size` on the installed pack's path (the per-call
`size_cache` is a memoization of this pure function). -/
def computePackStatusOne (sizeOf : String → Nat) (installed : List InstalledPackInfo)
    (pack : PackInfo) : PackInfo :=
  match lookupInstalled installed pack with
  | none => pack
  | some idx =>
    match installed[idx]? with
    | none => pack
    | some inst =>
      let uuid_match := pack.uuid.isSome && pack.uuid == inst.uuid
      match resolvedNewVer uuid_match pack, resolvedOldVer uuid_match inst with
      | some nv, some ov =>
        if nv == ov then { pack with is_installed := some true, installed_version := some ov }
        else
          { pack with
            is_installed := some true
            is_update := some true
            installed_version := some ov }
      | some _, none => { pack with is_installed := some true, installed_version := none }
      | none, some ov =>
        { pack with is_installed := some true, installed_version := some ov }
      | none, none =>
        let old_size := sizeOf inst.path
        match pack.folder_size with
        | some new_size =>
          if ratioExceeds new_size old_size then
            { pack with is_installed := some true, is_update := some true }
          else { pack with is_installed := some true }
        | none => { pack with is_installed := some true }

/-- lib.rs `compute_pack_status` over a candidate list. -/
def compute_pack_status (sizeOf : String → Nat) (installed : List InstalledPackInfo)
    (packs : List PackInfo) : List PackInfo :=
  packs.map (computePackStatusOne sizeOf installed)

/-- The settings fields consumed by the install engine (pack_type.rs
`Settings`; purely cosmetic UI fields are not part of the embedding). -/
structure Settings where
  behavior_pack_path : Option String
  resource_pack_path : Option String
  skin_pack_path : Option String
  skin_pack_4d_path : Option String
  world_template_path : Option String
  scan_location : Option String
  dry_run : Bool
  delete_source : Bool
  deriving DecidableEq, Repr

/-- file_mover.rs `MoveOperation`. -/
structure MoveOperation where
  source : String
  destination : String
  pack_name : String
  pack_type : PackType
  success : Bool
  error : Option String
  is_template_update : Option Bool
  skin_pack_4d_path : Option String
  deleted_old_path : Option String
  deriving DecidableEq, Repr

/-- The suffix list of file_mover.rs `strip_pack_suffix`, in source
order. -/
def moverSuffixes : List String :=
  [" (ADDON)", "(ADDON)", " (RESOURCE)", "(RESOURCE)", " (SKIN)", "(SKIN)",
   " (TEMPLATE)", "(TEMPLATE)", " (MASHUP)", "(MASHUP)"]

/-- file_mover.rs `strip_pack_suffix`: strip the first matching suffix
(case sensitive), then trim. -/
def strip_pack_suffix (name : String) : String :=
  String.mk (trimWsL (stripOneSuffix moverSuffixes name.data))

/-- The per-type folder-name suffix table (identical in
`extract_pack_to_destination`, `find_old_pack_path` and `process_pack`). -/
def type_suffix : PackType → String
  | .BehaviorPack => " (ADDON)"
  | .ResourcePack => " (RESOURCE)"
  | .SkinPack => " (SKIN)"
  | .SkinPack4D => ""
  | .WorldTemplate => " (TEMPLATE)"
  | .MashupPack => " (MASHUP)"
  | .Unknown => ""

/-- `PathBuf::join` for the separator-clean base paths and names the engine
produces (an empty base joins to the name itself). -/
def joinPath (base n : String) : String :=
  if base == "" then n else base ++ "/" ++ n

/-- Last path component of a `/`-separated path. -/
def lastComp (p : String) : String :=
  String.mk ((splitOnCharL '/' p.data).getLastD p.data)

/-- `Path::parent` rendered as a string for `/`-separated paths: `""` for a
single component (as in Rust), `"/"` when only the root remains. -/
def parentStr (p : String) : String :=
  match splitOnCharL '/' p.data with
  | [] => ""
  | [_] => ""
  | parts =>
    let pre := String.intercalate "/" (parts.dropLast.map String.mk)
    if pre == "" then "/" else pre

/-- The mutable world of one `FileMover`: the set of existing filesystem
paths (directories and extracted files, identified by full path) and the
undo history (most recent last, as in the source `Vec`). -/
structure MoverState where
  fs : List String
  history : List MoveOperation
  deriving DecidableEq, Repr

/-- Is `x` the path `d` or strictly inside it? -/
def isUnder (d x : String) : Bool :=
  x == d || strStartsWith x (d ++ "/")

/-- `fs::remove_dir_all`: drop a path and everything under it. -/
def removeTree (fs : List String) (d : String) : List String :=
  fs.filter (fun x => !(isUnder d x))

/-- Add paths to the filesystem set (membership semantics). -/
def insertAll (fs : List String) (xs : List String) : List String :=
  xs.foldl (fun acc x => if acc.contains x then acc else acc ++ [x]) fs

/-- file_mover.rs `find_old_pack_path`: the first directory of the
destination root whose suffix-stripped lower-cased name equals the
candidate's but whose exact name differs from the freshly computed output
name.  `read_dir` order is modelled as the `fs` list order; every tracked
path is a directory at this granularity. -/
def find_old_pack_path (fs : List String) (dest_base : String) (pack_name : String)
    (pt : PackType) : Option String :=
  if fs.contains dest_base then
    let base_name := lowerStr (strip_pack_suffix pack_name)
    let expected := strip_pack_suffix pack_name ++ type_suffix pt
    (fs.filter (fun p => parentStr p == dest_base)).find? (fun p =>
      let folder_name := lastComp p
      lowerStr (strip_pack_suffix folder_name) == base_name && folder_name != expected)
  else none

/-- file_mover.rs `FileMover::get_destination_path`. -/
def get_destination_path (s : Settings) (pt : PackType) (scan_dir : Option String) :
    Option String :=
  match pt with
  | .SkinPack4D => scan_dir.map (fun sc => joinPath sc "4D Skin Packs")
  | .BehaviorPack => s.behavior_pack_path
  | .ResourcePack => s.resource_pack_path
  | .SkinPack => s.skin_pack_path
  | .WorldTemplate => s.world_template_path
  | .MashupPack => s.world_template_path
  | .Unknown => none

/-- The subfolder-stripping of `extract_pack_to_destination`: the entry is
skipped (`none`) when it is outside the subfolder or resolves to the empty
path; the result is the resolved relative path (leading slashes
trimmed). -/
def entryRel (subfolder : Option String) (name : String) : Option String :=
  let base : Option String :=
    match subfolder with
    | some sf =>
      if strStartsWith name (sf ++ "/") then some (String.mk (name.data.drop (sf.length + 1)))
      else if strStartsWith name sf then
        some (String.mk (dropLeading '/' (name.data.drop sf.length)))
      else none
    | none => some name
  match base with
  | some b =>
    let t := String.mk (dropLeading '/' b.data)
    if t == "" then none else some t
  | none => none

/-- Does the relative path contain a parent-directory component (Rust
`Path::components().any(|c| c == Component::ParentDir)` for the
`/`-separated names zip entries carry)? -/
def hasTraversal (rp : String) : Bool :=
  (splitOnCharL '/' rp.data).any (fun c => c == "..".data)

/-- Component normalization of the relative path, as `Path::components`
performs on the joined output path: empty pieces and `.` are dropped (the
traversal check runs before this, on the raw components). -/
def relComps (rp : String) : List String :=
  ((splitOnCharL '/' rp.data).map String.mk).filter (fun c => c != "" && c != ".")

/-- The plan computed by the first pass of `extract_pack_to_destination`:
directories to create and files to write, both as component paths relative
to the output folder. -/
structure ExtractPlan where
  dirs : List (List String)
  files : List (Nat × List String)
  deriving DecidableEq, Repr

/-- The planning pass of `extract_pack_to_destination` over the entries in
index order: symlink entries are skipped, subfolder-external and empty
relative paths are skipped, a parent-directory component aborts with the
security error, directory entries are queued, and a file entry queues its
parent directory (during this pass only the freshly created output folder
itself exists, so `!p.exists()` is exactly `parent ≠ []`) and itself. -/
def planAux (sf : Option String) :
    List ZipEntry → Nat → List (List String) → List (Nat × List String) →
    Except String ExtractPlan
  | [], _, dirs, files => .ok ⟨dirs, files⟩
  | e :: rest, i, dirs, files =>
    if e.isSymlink then planAux sf rest (i + 1) dirs files
    else
      match entryRel sf e.name with
      | none => planAux sf rest (i + 1) dirs files
      | some rp =>
        if hasTraversal rp then
          .error ("Security: Attempted path traversal in zip file: " ++ rp)
        else
          let comps := relComps rp
          if strEndsWith e.name "/" then planAux sf rest (i + 1) (dirs ++ [comps]) files
          else
            let parent := comps.dropLast
            let dirs2 :=
              if !(dirs.contains parent) && parent != [] then dirs ++ [parent] else dirs
            planAux sf rest (i + 1) dirs2 (files ++ [(i, comps)])

/-- The planning pass of `extract_pack_to_destination`. -/
def planExtract (sf : Option String) (entries : List ZipEntry) : Except String ExtractPlan :=
  planAux sf entries 0 [] []

/-- One filesystem action of `extract_pack_to_destination`, relative to the
output folder. -/
inductive FsAction where
  | removeOut
  | createOut
  | createDir (p : List String)
  | writeFile (i : Nat) (p : List String)
  deriving DecidableEq, Repr

/-- `extract_pack_to_destination` as its result plus its ordered trace of
filesystem actions: remove the existing output folder, create the output
folder, and — only when the planning pass succeeded — create the planned
directories and stream the planned files. -/
def extractActions (entries : List ZipEntry) (sf : Option String) (outputExists : Bool) :
    Except String Unit × List FsAction :=
  let pre := (if outputExists then [FsAction.removeOut] else []) ++ [FsAction.createOut]
  match planExtract sf entries with
  | .error e => (.error e, pre)
  | .ok plan =>
    (.ok (), pre ++ plan.dirs.map FsAction.createDir ++
      plan.files.map (fun f => FsAction.writeFile f.1 f.2))

/-- Render a planned component path as a full path under the output
folder. -/
def relFull (destination : String) (comps : List String) : String :=
  destination ++ "/" ++ String.intercalate "/" comps

/-- The destination-base resolution of `FileMover::process_pack`: a 4D skin
pack goes to the `"4D Skin Packs"` folder next to the source archive (this
branch bypasses `get_destination_path`); every other type goes through the
configured per-type folder. -/
def destBaseOf (pack : PackInfo) (settings : Settings) (scan_dir : Option String) :
    Option (String × Bool) :=
  if pack.pack_type == PackType.SkinPack4D then
    some (joinPath (parentStr pack.path) "4D Skin Packs", true)
  else
    match get_destination_path settings pack.pack_type scan_dir with
    | some p => some (p, false)
    | none => none

/-- The superseded-version search of `FileMover::process_pack`: only for an
update that is not a 4D pack. -/
def oldPathOf (st : MoverState) (pack : PackInfo) (dest_base : String) (is4d : Bool) :
    Option String :=
  if !is4d && pack.is_update.getD false then
    find_old_pack_path st.fs dest_base pack.name pack.pack_type
  else none

/-- file_mover.rs `FileMover::process_pack`.  `entries` is the content of
the archive at `pack.path`; old-folder deletion is modelled as succeeding
(the source logs a warning and continues on failure), and I/O failures of
the write phase are not modelled — the only modelled extraction failure is
the planning-pass error. -/
def process_pack (settings : Settings) (st : MoverState) (pack : PackInfo)
    (scan_dir : Option String) (entries : List ZipEntry) : MoveOperation × MoverState :=
  match destBaseOf pack settings scan_dir with
  | none =>
    ({ source := pack.path, destination := "", pack_name := pack.name,
       pack_type := pack.pack_type, success := false,
       error := some "No destination path configured",
       is_template_update := none, skin_pack_4d_path := none,
       deleted_old_path := none }, st)
  | some (dest_base, is4d) =>
    let output_name := pack.name ++ type_suffix pack.pack_type
    let destination := joinPath dest_base output_name
    let is_template_update :=
      (pack.pack_type == PackType.WorldTemplate || pack.pack_type == PackType.MashupPack) &&
        st.fs.contains destination
    let old_pack_path := oldPathOf st pack dest_base is4d
    if settings.dry_run then
      ({ source := pack.path, destination := destination, pack_name := output_name,
         pack_type := pack.pack_type, success := true, error := none,
         is_template_update := if is_template_update then some true else none,
         skin_pack_4d_path := if is4d then some destination else none,
         deleted_old_path := old_pack_path }, st)
    else
      let fs1 :=
        match old_pack_path with
        | some old => removeTree st.fs old
        | none => st.fs
      let fs_pre := insertAll (removeTree fs1 destination) [dest_base, destination]
      match planExtract pack.subfolder entries with
      | .ok plan =>
        let fs2 := insertAll fs_pre
          ((plan.dirs.map (relFull destination)) ++
            (plan.files.map (fun f => relFull destination f.2)))
        let op : MoveOperation :=
          { source := pack.path, destination := destination, pack_name := output_name,
            pack_type := pack.pack_type, success := true, error := none,
            is_template_update := if is_template_update then some true else none,
            skin_pack_4d_path := if is4d then some destination else none,
            deleted_old_path := old_pack_path }
        (op, { fs := fs2, history := st.history ++ [op] })
      | .error e =>
        ({ source := pack.path, destination := destination, pack_name := output_name,
           pack_type := pack.pack_type, success := false, error := some e,
           is_template_update := none, skin_pack_4d_path := none,
           deleted_old_path := none }, { fs := fs_pre, history := st.history })

/-- file_mover.rs `FileMover::rollback_last`: pop the most recent
operation; in dry-run mode report it unchanged; otherwise fail (entry
already popped) when its destination no longer exists, else remove the
destination folder entirely. -/
def rollback_last (settings : Settings) (st : MoverState) :
    Option MoveOperation × MoverState :=
  match st.history.getLast? with
  | none => (none, st)
  | some op =>
    let st1 : MoverState := { st with history := st.history.dropLast }
    if settings.dry_run then (some op, st1)
    else if st1.fs.contains op.destination then
      (some op, { st1 with fs := removeTree st1.fs op.destination })
    else (none, st1)

/-- Claim-side reading of the specification's "some archive entry's path is
under a \x22geometry\x22 path": some strict directory component of the
entry's path (not the file name itself) contains "geometry"
(case-insensitive).  This definition follows the spec's words and is
compared against `check_4d_in_archive`, which tests the whole name. -/
def specUnderGeometryPath (name : String) : Bool :=
  (((splitOnCharL '/' name.data).map String.mk).dropLast).any
    (fun c => strContains (lowerStr c) "geometry")

/-- A folder-size oracle that is never consulted by the scenarios below
(their version comparisons never reach the size fallback). -/
def sizeZero : String → Nat := fun _ => 0

/-- A behavior-pack manifest with `modules[0].type == "data"`. -/
def bpManifest : Json :=
  .obj [("modules", .arr [.obj [("type", .str "data")]]),
        ("header", .obj [("uuid", .str "bp-uuid"), ("version", .arr [.num 1, .num 0, .num 0])])]

/-- An archive bundling one behavior pack under `behavior_packs/bp`. -/
def archMashupBp : Archive :=
  ⟨[⟨"behavior_packs/bp/manifest.json", some bpManifest, none, false⟩]⟩

/-- An archive with a root `skins.json` and a root `geometry.json` (a file
whose own name contains "geometry", not a file under a geometry folder). -/
def archSkinGeo : Archive :=
  ⟨[⟨"skins.json", none, none, false⟩, ⟨"geometry.json", none, none, false⟩]⟩

/-- A skin-pack manifest (`modules[0].type == "skin_pack"`) with uuid and
version. -/
def spManifest : Json :=
  .obj [("modules", .arr [.obj [("type", .str "skin_pack")]]),
        ("header", .obj [("uuid", .str "abc"), ("version", .str "1.0.0")])]

/-- An archive whose root manifest declares a skin pack (no skins.json). -/
def archManifestSkin : Archive := ⟨[⟨"manifest.json", some spManifest, none, false⟩]⟩

/-- A world-template manifest. -/
def wtManifest : Json :=
  .obj [("modules", .arr [.obj [("type", .str "world_template")]]),
        ("header", .obj [("uuid", .str "w-u"), ("version", .arr [.num 1, .num 2, .num 0])])]

/-- An archive with a root world-template manifest. -/
def archWT : Archive := ⟨[⟨"manifest.json", some wtManifest, none, false⟩]⟩

/-- The candidate produced for `archWT` scanned from a mash-up-named file. -/
def mashupWtPack : PackInfo :=
  { path := "/s/A Mashup.mctemplate", name := "A Mashup", pack_type := .MashupPack,
    uuid := some "w-u", version := some "1.2.0", extracted := false, icon_base64 := none,
    subfolder := none, folder_size := none, folder_size_formatted := none,
    needs_attention := none, attention_message := none, is_installed := none,
    is_update := none, installed_version := none }

/-- Reconciliation sample: an installed resource pack without any
resolvable version. -/
def noVerInstalled : InstalledPackInfo :=
  { uuid := none, name := "Bar", pack_type := .ResourcePack, version := none,
    path := "/p/Bar (RESOURCE)", folder_name := "Bar (RESOURCE)" }

/-- Reconciliation sample: a candidate matching `noVerInstalled` by base
name whose declared version is "2.0". -/
def verCandidate : PackInfo :=
  { path := "/scans/Bar v2.mcpack", name := "Bar v2", pack_type := .ResourcePack,
    uuid := none, version := some "2.0", extracted := false, icon_base64 := none,
    subfolder := none, folder_size := none, folder_size_formatted := none,
    needs_attention := none, attention_message := none, is_installed := none,
    is_update := none, installed_version := none }

/-- Reconciliation sample: an installed pack with uuid "u" and manifest
version "1.0.0" whose folder name "Foo 7 (ADDON)" yields the heuristic
version "7". -/
def sameUuidInstalled : InstalledPackInfo :=
  { uuid := some "u", name := "Foo 7", pack_type := .BehaviorPack, version := some "1.0.0",
    path := "/packs/Foo 7 (ADDON)", folder_name := "Foo 7 (ADDON)" }

/-- Reconciliation sample: the same pack dropped again — same uuid "u" and
same manifest version "1.0.0"; its name "Foo 7" yields no heuristic
version. -/
def sameUuidCandidate : PackInfo :=
  { path := "/scans/Foo 7.mcpack", name := "Foo 7", pack_type := .BehaviorPack,
    uuid := some "u", version := some "1.0.0", extracted := false, icon_base64 := none,
    subfolder := none, folder_size := none, folder_size_formatted := none,
    needs_attention := none, attention_message := none, is_installed := none,
    is_update := none, installed_version := none }

/-- Reconciliation sample: installed pack whose folder name "Foo 1.2
(ADDON)" resolves heuristically to "2" (pattern 1 matches at ".2"). -/
def agreeInstalled : InstalledPackInfo :=
  { uuid := some "u", name := "Foo 1.2", pack_type := .BehaviorPack, version := some "1.0.0",
    path := "/packs/Foo 1.2 (ADDON)", folder_name := "Foo 1.2 (ADDON)" }

/-- Reconciliation sample: candidate whose name "Foo 1.2" also resolves to
"2" — the two sides' resolved versions agree. -/
def agreeCandidate : PackInfo :=
  { path := "/scans/Foo 1.2.mcpack", name := "Foo 1.2", pack_type := .BehaviorPack,
    uuid := some "u", version := some "1.0.0", extracted := false, icon_base64 := none,
    subfolder := none, folder_size := none, folder_size_formatted := none,
    needs_attention := none, attention_message := none, is_installed := none,
    is_update := none, installed_version := none }

/-- Installer sample settings: behavior packs install under "root", not a
dry run. -/
def moverSettings : Settings :=
  { behavior_pack_path := some "root", resource_pack_path := some "rroot",
    skin_pack_path := some "sroot", skin_pack_4d_path := none,
    world_template_path := some "wroot", scan_location := some "/scans",
    dry_run := false, delete_source := false }

/-- Installer sample: a behavior-pack candidate named "Foo". -/
def fooPack : PackInfo :=
  { path := "/scans/Foo.mcpack", name := "Foo", pack_type := .BehaviorPack,
    uuid := none, version := none, extracted := false, icon_base64 := none,
    subfolder := none, folder_size := none, folder_size_formatted := none,
    needs_attention := none, attention_message := none, is_installed := none,
    is_update := none, installed_version := none }

/-- Installer sample: a 4D skin-pack candidate. -/
def fourDPack : PackInfo :=
  { path := "/scans/Sk.mcpack", name := "Sk", pack_type := .SkinPack4D,
    uuid := none, version := none, extracted := false, icon_base64 := none,
    subfolder := none, folder_size := none, folder_size_formatted := none,
    needs_attention := none, attention_message := none, is_installed := none,
    is_update := none, installed_version := none }

/-- Installer sample: one plain file entry. -/
def plainEntries : List ZipEntry := [⟨"a.txt", none, none, false⟩]

/-- Installer sample state where the destination "root/Foo (ADDON)"
already exists before the install. -/
def preExistingState : MoverState := ⟨["root", "root/Foo (ADDON)"], []⟩

/-- Installer sample state with only the destination root. -/
def cleanState : MoverState := ⟨["root"], []⟩

/-- Membership in `insertAll` is membership in either list. -/
theorem mem_insertAll : ∀ (xs fs : List String) (x : String),
    x ∈ insertAll fs xs ↔ x ∈ fs ∨ x ∈ xs
  | [], fs, x => by simp [insertAll]
  | y :: ys, fs, x => by
    have ih := mem_insertAll ys (if fs.contains y then fs else fs ++ [y]) x
    unfold insertAll at ih ⊢
    simp only [List.foldl_cons]
    by_cases hy : fs.contains y = true
    · rw [if_pos hy] at ih
      rw [show (if fs.contains y = true then fs else fs ++ [y]) = fs from if_pos hy]
      rw [ih]
      have hym : y ∈ fs := by simpa using hy
      simp only [List.mem_cons]
      constructor
      · tauto
      · rintro (h | rfl | h)
        · exact Or.inl h
        · exact Or.inl hym
        · exact Or.inr h
    · rw [if_neg hy] at ih
      rw [show (if fs.contains y = true then fs else fs ++ [y]) = fs ++ [y] from if_neg hy]
      rw [ih]
      simp only [List.mem_append, List.mem_singleton, List.mem_cons]
      tauto

/-- Membership in `removeTree`. -/
theorem mem_removeTree (fs : List String) (d x : String) :
    x ∈ removeTree fs d ↔ x ∈ fs ∧ isUnder d x = false := by
  simp [removeTree, List.mem_filter]

/-- `removeTree` is the identity when nothing in the set is under the
removed path. -/
theorem removeTree_eq_self (fs : List String) (d : String)
    (h : ∀ x ∈ fs, isUnder d x = false) : removeTree fs d = fs := by
  apply List.filter_eq_self.mpr
  intro a ha
  simp [h a ha]

/-- A path is under itself. -/
theorem isUnder_self (d : String) : isUnder d d = true := by
  simp [isUnder]

/-- A list is a prefix of itself followed by anything. -/
theorem isPreL_append (l m : List Char) : isPreL l (l ++ m) = true := by
  induction l with
  | nil => rfl
  | cons c cs ih => simp [isPreL, ih]

/-- A rendered planned path lies under the output folder. -/
theorem isUnder_relFull (d : String) (c : List String) : isUnder d (relFull d c) = true := by
  have h2 : strStartsWith (relFull d c) (d ++ "/") = true := by
    unfold strStartsWith relFull
    rw [String.data_append]
    exact isPreL_append _ _
  unfold isUnder
  rw [h2]
  simp

/-- A prefix is no longer than the whole. -/
theorem isPreL_length : ∀ (p l : List Char), isPreL p l = true → p.length ≤ l.length
  | [], _, _ => by simp
  | _ :: _, [], h => by simp [isPreL] at h
  | p :: ps, c :: cs, h => by
    simp only [isPreL, Bool.and_eq_true] at h
    simpa using Nat.succ_le_succ (isPreL_length ps cs h.2)

/-- If some considered entry's resolved relative path contains a
parent-directory component, the planning pass returns the security error,
whatever the accumulated plan is. -/
theorem planAux_error (sf : Option String) :
    ∀ (entries : List ZipEntry) (i : Nat) (dirs : List (List String))
      (files : List (Nat × List String)),
    (∃ e ∈ entries, e.isSymlink = false ∧
      ∃ rp, entryRel sf e.name = some rp ∧ hasTraversal rp = true) →
    ∃ msg, planAux sf entries i dirs files = .error msg ∧
      strStartsWith msg "Security: Attempted path traversal" = true
  | [], _, _, _, h => by simp at h
  | e :: rest, i, dirs, files, h => by
    obtain ⟨w, hw, hns, rp', hrel', htr'⟩ := h
    cases hsym : e.isSymlink with
    | true =>
      rcases List.mem_cons.mp hw with rfl | hwr
      · simp [hns] at hsym
      · simp only [planAux, hsym, if_true]
        exact planAux_error sf rest (i + 1) dirs files ⟨w, hwr, hns, rp', hrel', htr'⟩
    | false =>
      simp only [planAux, hsym, Bool.false_eq_true, if_false]
      cases hrel : entryRel sf e.name with
      | none =>
        rcases List.mem_cons.mp hw with rfl | hwr
        · rw [hrel] at hrel'; exact absurd hrel' (by simp)
        · exact planAux_error sf rest (i + 1) dirs files ⟨w, hwr, hns, rp', hrel', htr'⟩
      | some rp =>
        cases htr : hasTraversal rp with
        | true =>
          refine ⟨"Security: Attempted path traversal in zip file: " ++ rp,
            by simp [htr], ?_⟩
          have hsplit : ("Security: Attempted path traversal in zip file: " : String) =
              "Security: Attempted path traversal" ++ " in zip file: " := by decide
          have hdata : ("Security: Attempted path traversal in zip file: " ++ rp).data =
              ("Security: Attempted path traversal").data ++
                ((" in zip file: ").data ++ rp.data) := by
            rw [String.data_append, hsplit, String.data_append, List.append_assoc]
          unfold strStartsWith
          rw [hdata]
          exact isPreL_append _ _
        | false =>
          have hwit : ∃ e2 ∈ rest, e2.isSymlink = false ∧
              ∃ rp2, entryRel sf e2.name = some rp2 ∧ hasTraversal rp2 = true := by
            rcases List.mem_cons.mp hw with rfl | hwr
            · rw [hrel] at hrel'
              obtain rfl : rp = rp' := by injection hrel'
              rw [htr'] at htr; exact absurd htr (by simp)
            · exact ⟨w, hwr, hns, rp', hrel', htr'⟩
          simp only [htr, Bool.false_eq_true, if_false]
          by_cases hend : strEndsWith e.name "/" = true
          · simp only [hend, if_true]
            exact planAux_error sf rest (i + 1) (dirs ++ [relComps rp]) files hwit
          · simp only [hend, if_false]
            exact planAux_error sf rest (i + 1) _ _ hwit

/-- C1: for every archive and extraction request, if some considered
entry's resolved relative output path (after optional subfolder-prefix
stripping) contains a parent-directory traversal component, then
`extract_pack_to_destination` returns an error identifying a path-traversal
security violation, detected in the first (planning) pass: its filesystem
trace contains no planned-directory creation and no file write — only the
removal/creation of the output folder itself, which precede planning in
the source — and the result is an error, never a clamped success. -/
theorem C1_traversal_planning_error (entries : List ZipEntry) (sf : Option String)
    (outputExists : Bool)
    (h : ∃ e ∈ entries, e.isSymlink = false ∧
      ∃ rp, entryRel sf e.name = some rp ∧ hasTraversal rp = true) :
    ∃ msg, (extractActions entries sf outputExists).1 = Except.error msg ∧
      strStartsWith msg "Security: Attempted path traversal" = true ∧
      (extractActions entries sf outputExists).2 =
        (if outputExists then [FsAction.removeOut] else []) ++ [FsAction.createOut] := by
  obtain ⟨msg, hplan, hpre⟩ := planAux_error sf entries 0 [] [] h
  have hpe : planExtract sf entries = .error msg := hplan
  exact ⟨msg, by simp [extractActions, hpe], hpre, by simp [extractActions, hpe]⟩

/-- Witness for C1 at the archive containing the entry `../../evil`. -/
theorem C1_traversal_planning_error_w :
    ∃ msg, (extractActions [⟨"../../evil", none, none, false⟩] none false).1 =
        Except.error msg ∧
      strStartsWith msg "Security: Attempted path traversal" = true ∧
      (extractActions [⟨"../../evil", none, none, false⟩] none false).2 =
        (if false then [FsAction.removeOut] else []) ++ [FsAction.createOut] :=
  C1_traversal_planning_error [⟨"../../evil", none, none, false⟩] none false
    ⟨⟨"../../evil", none, none, false⟩, List.Mem.head _, rfl, "../../evil",
      by decide, by decide⟩

/-- C3 counterexample: on "Foo v1.2.3" the code returns "2.3", not the
claimed "1.2.3" (the first pattern `v?\.(...)` matches at the substring
".2.3" before the second pattern can capture "1.2.3"). -/
theorem C3_extract_version_cex :
    extract_version_from_name "Foo v1.2.3" ≠ some "1.2.3" ∧
      extract_version_from_name "Foo v1.2.3" = some "2.3" := by
  constructor
  · decide
  · decide

/-- C3 amended: `extract_version` applied to "Foo v1.2.3" returns "2.3";
applied to "Foo 7 (beta)" it returns "7"; applied to "Foo" it returns
none. -/
theorem C3_extract_version_amended :
    extract_version_from_name "Foo v1.2.3" = some "2.3" ∧
      extract_version_from_name "Foo 7 (beta)" = some "7" ∧
      extract_version_from_name "Foo" = none := by
  refine ⟨by decide, by decide, by decide⟩

/-- C6: a path that cannot be opened, or that is not a readable zip
archive, classifies to the empty candidate sequence rather than an
error. -/
theorem C6_fail_soft (path : String) :
    scan_single_pack path .unreadable = [] ∧ scan_single_pack path .notZip = [] :=
  ⟨rfl, rfl⟩

/-- C7 counterexample: in an archive whose entries are `skins.json` and a
root file `geometry.json`, no entry lies under a "geometry" directory, yet
the single candidate is SkinPack4D, not the SkinPack the claim's
"otherwise" clause requires — the code tests the whole entry name for the
substring "geometry". -/
theorem C7_skin_pack_cex :
    (scan_single_pack "/s/p.mcpack" (.archive archSkinGeo)).map (fun c => c.pack_type) =
      [PackType.SkinPack4D] ∧
    (archSkinGeo.entries.all (fun e =>
      !(specUnderGeometryPath e.name && strEndsWith (lowerStr e.name) ".json"))) = true :=
  ⟨by decide, by decide⟩

/-- C7 amended: for every archive containing a skins.json entry (root or
nested), classification returns exactly one candidate; its pack type is
SkinPack4D when some entry's lower-cased full path contains "geometry" and
ends in ".json" (the file's own name may supply the substring), and
SkinPack otherwise. -/
theorem C7_skin_pack_amended (path : String) (a : Archive) (h : hasSkinsJson a = true) :
    (scan_single_pack path (.archive a)).map (fun c => c.pack_type) =
      [if check_4d_in_archive a then PackType.SkinPack4D else PackType.SkinPack] := by
  simp only [scan_single_pack, h, if_true, List.map_cons, List.map_nil]

/-- Witness for C7 at the skins.json + geometry.json archive. -/
theorem C7_skin_pack_amended_w :
    (scan_single_pack "/s/p.mcpack" (.archive archSkinGeo)).map (fun c => c.pack_type) =
      [if check_4d_in_archive archSkinGeo then PackType.SkinPack4D else PackType.SkinPack] :=
  C7_skin_pack_amended "/s/p.mcpack" archSkinGeo (by decide)

/-- C10 counterexample: an archive without skins.json whose root manifest
declares a `skin_pack` module classifies to a SkinPack candidate carrying
the manifest uuid and version — so "pack_type is SkinPack" does not imply
"uuid and version are None". -/
theorem C10_skin_identity_cex :
    (scan_single_pack "/s/X.mcpack" (.archive archManifestSkin)).map
      (fun c => (c.pack_type, c.uuid, c.version)) =
      [(PackType.SkinPack, some "abc", some "1.0.0")] := by
  decide

/-- C10 amended: for every archive classified through the skins.json
branch (an entry named skins.json at the root or any entry ending in
skins.json), every returned candidate's uuid and version are None; a
SkinPack candidate can instead arise from a `skin_pack` manifest module
and then carries the manifest identity. -/
theorem C10_skin_identity_amended (path : String) (a : Archive) (h : hasSkinsJson a = true) :
    ((scan_single_pack path (.archive a)).all
      (fun c => c.uuid == none && c.version == none)) = true := by
  simp only [scan_single_pack, h, if_true, List.all_cons, List.all_nil]
  rfl

/-- Witness for C10 at the skins.json + geometry.json archive. -/
theorem C10_skin_identity_amended_w :
    ((scan_single_pack "/s/p.mcpack" (.archive archSkinGeo)).all
      (fun c => c.uuid == none && c.version == none)) = true :=
  C10_skin_identity_amended "/s/p.mcpack" archSkinGeo (by decide)

/-- C2 counterexample: the candidate resolves version "2.0", the matched
installed pack resolves none, yet the reconciler leaves `is_update` unset —
the one-sided branch only marks `is_installed`, contradicting the claimed
Installed-Needs-Update state. -/
theorem C2_one_sided_version_cex :
    resolvedNewVer (verCandidate.uuid.isSome && verCandidate.uuid == noVerInstalled.uuid)
      verCandidate = some "2.0" ∧
    resolvedOldVer (verCandidate.uuid.isSome && verCandidate.uuid == noVerInstalled.uuid)
      noVerInstalled = none ∧
    (computePackStatusOne sizeZero [noVerInstalled] verCandidate).is_installed = some true ∧
    (computePackStatusOne sizeZero [noVerInstalled] verCandidate).is_update = none :=
  ⟨by decide, by decide, by decide, by decide⟩

/-- C2 amended: for every matched candidate/installed pair where exactly
one side resolves a version, the candidate's final state is Installed with
`is_update` left unchanged (not flagged as an update) and
`installed_version` set to the installed side's resolution (none when only
the candidate resolves one). -/
theorem C2_one_sided_version_amended (sizeOf : String → Nat)
    (installed : List InstalledPackInfo) (pack : PackInfo) (idx : Nat)
    (inst : InstalledPackInfo)
    (hidx : lookupInstalled installed pack = some idx)
    (hinst : installed[idx]? = some inst) :
    (∀ v, resolvedNewVer (pack.uuid.isSome && pack.uuid == inst.uuid) pack = some v →
      resolvedOldVer (pack.uuid.isSome && pack.uuid == inst.uuid) inst = none →
      (computePackStatusOne sizeOf installed pack).is_installed = some true ∧
      (computePackStatusOne sizeOf installed pack).is_update = pack.is_update ∧
      (computePackStatusOne sizeOf installed pack).installed_version = none) ∧
    (∀ v, resolvedNewVer (pack.uuid.isSome && pack.uuid == inst.uuid) pack = none →
      resolvedOldVer (pack.uuid.isSome && pack.uuid == inst.uuid) inst = some v →
      (computePackStatusOne sizeOf installed pack).is_installed = some true ∧
      (computePackStatusOne sizeOf installed pack).is_update = pack.is_update ∧
      (computePackStatusOne sizeOf installed pack).installed_version = some v) := by
  constructor
  · intro v hn ho
    simp [computePackStatusOne, hidx, hinst, hn, ho]
  · intro v hn ho
    simp [computePackStatusOne, hidx, hinst, hn, ho]

/-- Witness for C2 amended at the `verCandidate`/`noVerInstalled` pair. -/
theorem C2_one_sided_version_amended_w :
    (computePackStatusOne sizeZero [noVerInstalled] verCandidate).is_installed = some true ∧
    (computePackStatusOne sizeZero [noVerInstalled] verCandidate).is_update =
      verCandidate.is_update ∧
    (computePackStatusOne sizeZero [noVerInstalled] verCandidate).installed_version = none :=
  (C2_one_sided_version_amended sizeZero [noVerInstalled] verCandidate 0 noVerInstalled
    (by decide) (by decide)).1 "2.0" (by decide) (by decide)

/-- C5 counterexample: dropping the very same pack again — identical uuid
"u" and identical declared version "1.0.0" — is marked Needs-Update,
because the uuid-match resolution prefers the version "7" parsed from the
installed folder name "Foo 7 (ADDON)" over the manifest version, while the
candidate side resolves its declared "1.0.0". -/
theorem C5_uuid_match_cex :
    sameUuidCandidate.uuid = sameUuidInstalled.uuid ∧
    sameUuidCandidate.uuid.isSome = true ∧
    sameUuidCandidate.version = sameUuidInstalled.version ∧
    (computePackStatusOne sizeZero [sameUuidInstalled] sameUuidCandidate).is_update =
      some true :=
  ⟨by decide, by decide, by decide, by decide⟩

/-- C5 amended: for every candidate matched to an installed pack by equal
uuid, when the two sides' resolved versions (name/path-derived first,
falling back to the declared version) are both present and equal the
result is Installed-Same-Version (`is_update` untouched); when both are
present and differ it is Installed-Needs-Update.  Installing the same
uuid+version twice therefore yields Same-Version exactly when the two
sides' heuristic resolutions agree — a version parsed from the installed
folder name may differ and then the pair is marked Needs-Update. -/
theorem C5_uuid_match_amended (sizeOf : String → Nat)
    (installed : List InstalledPackInfo) (pack : PackInfo) (idx : Nat)
    (inst : InstalledPackInfo)
    (hidx : lookupInstalled installed pack = some idx)
    (hinst : installed[idx]? = some inst)
    (hmatch : (pack.uuid.isSome && pack.uuid == inst.uuid) = true) :
    (∀ v, resolvedNewVer true pack = some v → resolvedOldVer true inst = some v →
      (computePackStatusOne sizeOf installed pack).is_installed = some true ∧
      (computePackStatusOne sizeOf installed pack).is_update = pack.is_update ∧
      (computePackStatusOne sizeOf installed pack).installed_version = some v) ∧
    (∀ va vb, resolvedNewVer true pack = some va → resolvedOldVer true inst = some vb →
      va ≠ vb →
      (computePackStatusOne sizeOf installed pack).is_installed = some true ∧
      (computePackStatusOne sizeOf installed pack).is_update = some true ∧
      (computePackStatusOne sizeOf installed pack).installed_version = some vb) := by
  constructor
  · intro v hn ho
    simp [computePackStatusOne, hidx, hinst, hmatch, hn, ho]
  · intro va vb hn ho hne
    have hb : (va == vb) = false := beq_eq_false_iff_ne.mpr hne
    simp [computePackStatusOne, hidx, hinst, hmatch, hn, ho, hb]

/-- Witness for C5 amended: the agreeing pair yields Same-Version, the
`sameUuid` pair (same uuid and declared version, diverging heuristics)
yields Needs-Update. -/
theorem C5_uuid_match_amended_w :
    ((computePackStatusOne sizeZero [agreeInstalled] agreeCandidate).is_installed =
        some true ∧
      (computePackStatusOne sizeZero [agreeInstalled] agreeCandidate).is_update =
        agreeCandidate.is_update ∧
      (computePackStatusOne sizeZero [agreeInstalled] agreeCandidate).installed_version =
        some "2") ∧
    ((computePackStatusOne sizeZero [sameUuidInstalled] sameUuidCandidate).is_installed =
        some true ∧
      (computePackStatusOne sizeZero [sameUuidInstalled] sameUuidCandidate).is_update =
        some true ∧
      (computePackStatusOne sizeZero [sameUuidInstalled] sameUuidCandidate).installed_version =
        some "7") :=
  ⟨(C5_uuid_match_amended sizeZero [agreeInstalled] agreeCandidate 0 agreeInstalled
      (by decide) (by decide) (by decide)).1 "2" (by decide) (by decide),
    (C5_uuid_match_amended sizeZero [sameUuidInstalled] sameUuidCandidate 0 sameUuidInstalled
      (by decide) (by decide) (by decide)).2 "1.0.0" "7" (by decide) (by decide) (by decide)⟩

/-- The module scan never yields MashupPack. -/
theorem firstPackTypeInModules_ne_mashup : ∀ (mods : List Json) (pt : PackType),
    firstPackTypeInModules mods = some pt → pt ≠ .MashupPack
  | [], pt, h => by simp [firstPackTypeInModules] at h
  | m :: rest, pt, h => by
    unfold firstPackTypeInModules at h
    cases hmt : (m.get "type").bind Json.as_str with
    | none =>
      rw [hmt] at h
      exact firstPackTypeInModules_ne_mashup rest pt h
    | some t =>
      rw [hmt] at h
      simp only [] at h
      split_ifs at h with h1 h2 h3 h4 h5
      all_goals first
        | (injection h with hh; subst hh; decide)
        | exact firstPackTypeInModules_ne_mashup rest pt h

/-- The header fallback yields BehaviorPack or Unknown. -/
theorem headerFallbackType_cases (j : Json) :
    headerFallbackType j = .BehaviorPack ∨ headerFallbackType j = .Unknown := by
  unfold headerFallbackType
  cases j.get "header" with
  | none => right; rfl
  | some header =>
    dsimp only
    by_cases hc : (match (header.get "capabilities").bind Json.as_array with
        | some caps => caps.any (fun c => c.as_str == some "scriptEngineVersion")
        | none => false) = true
    · rw [if_pos hc]; left; rfl
    · rw [if_neg hc]
      cases (header.get "name").bind Json.as_str with
      | none => right; rfl
      | some name =>
        dsimp only
        by_cases hb : (strContains (lowerStr name) "behavior" ||
            strContains (lowerStr name) "behaviour" ||
            strContains (lowerStr name) "addon") = true
        · rw [if_pos hb]; left; rfl
        · rw [if_neg hb]; right; rfl

/-- `determine_pack_type` never yields MashupPack. -/
theorem determine_pack_type_ne_mashup (j : Json) :
    determine_pack_type j ≠ .MashupPack := by
  unfold determine_pack_type
  cases hm : (j.get "modules").bind Json.as_array with
  | none =>
    rcases headerFallbackType_cases j with h | h <;> simp [h]
  | some mods =>
    cases hf : firstPackTypeInModules mods with
    | none =>
      rcases headerFallbackType_cases j with h | h <;> simp [hf, h]
    | some pt =>
      simpa [hf] using firstPackTypeInModules_ne_mashup mods pt hf

/-- The subfolder-name fallback never yields MashupPack. -/
theorem subfolderFallbackType_ne_mashup (sf : String) :
    subfolderFallbackType sf ≠ .MashupPack := by
  unfold subfolderFallbackType
  dsimp only
  split_ifs <;> decide

/-- The structural type of a multi-pack subfolder is never MashupPack. -/
theorem get_pack_info_from_subfolder_ne_mashup (a : Archive) (sf : String) :
    (get_pack_info_from_subfolder a sf).1 ≠ .MashupPack := by
  unfold get_pack_info_from_subfolder
  cases a.by_name (sf ++ "/manifest.json") with
  | none => exact subfolderFallbackType_ne_mashup sf
  | some e =>
    dsimp only
    cases e.json with
    | none => exact subfolderFallbackType_ne_mashup sf
    | some j =>
      dsimp only
      split
      · exact subfolderFallbackType_ne_mashup sf
      · exact determine_pack_type_ne_mashup j

/-- The structural type of the root manifest is never MashupPack. -/
theorem get_pack_info_from_archive_ne_mashup (a : Archive) :
    (get_pack_info_from_archive a).1 ≠ .MashupPack := by
  unfold get_pack_info_from_archive
  cases a.by_name "manifest.json" with
  | none => simp
  | some e =>
    dsimp only
    cases e.json with
    | none => simp
    | some j => exact determine_pack_type_ne_mashup j

/-- C4 counterexample: for the mash-up-named archive bundling one behavior
pack, classification emits a MashupPack candidate although the candidate's
subfolder's structural type is BehaviorPack — the multi-pack path overrides
every candidate's type when the file name carries a mash-up marker. -/
theorem C4_mashup_cex :
    (scan_single_pack "/scans/Cool Mashup Pack.mcaddon" (.archive archMashupBp)).map
      (fun c => c.pack_type) = [PackType.MashupPack] ∧
    (get_pack_info_from_subfolder archMashupBp "behavior_packs/bp").1 =
      PackType.BehaviorPack ∧
    detect_subfolders archMashupBp = ["behavior_packs/bp"] :=
  ⟨by decide, by decide, by decide⟩

/-- C4 amended: a MashupPack candidate is produced only when the source
file name contains a mash-up marker; and on the single-pack path (no
multi-pack subfolders) only when the structural type is WorldTemplate.  On
the multi-pack path the marker alone reclassifies every candidate,
whatever its structural type. -/
theorem C4_mashup_amended (path : String) (a : Archive) (c : PackInfo)
    (hc : c ∈ scan_single_pack path (.archive a)) :
    (c.pack_type = .MashupPack → is_mashup_name (fileStemOr path) = true) ∧
    (detect_subfolders a = [] → c.pack_type = .MashupPack →
      (get_pack_info_from_archive a).1 = .WorldTemplate) := by
  simp only [scan_single_pack] at hc
  by_cases hsk : hasSkinsJson a = true
  · simp only [hsk, if_true, List.mem_singleton] at hc
    subst hc
    constructor
    · intro hm
      by_cases h4 : check_4d_in_archive a = true <;> simp [h4] at hm
    · intro _ hm
      by_cases h4 : check_4d_in_archive a = true <;> simp [h4] at hm
  · rw [Bool.not_eq_true] at hsk
    simp only [hsk, Bool.false_eq_true, if_false] at hc
    by_cases hsubs : detect_subfolders a = []
    · simp only [hsubs, List.isEmpty_nil, Bool.not_true, Bool.false_eq_true, if_false,
        List.mem_singleton] at hc
      subst hc
      dsimp only
      constructor
      · intro hm
        by_cases hcond : (is_mashup_name (fileStemOr path) &&
            ((get_pack_info_from_archive a).1 == PackType.WorldTemplate)) = true
        · exact ((Bool.and_eq_true _ _).mp hcond).1
        · rw [if_neg hcond] at hm
          exact absurd hm (get_pack_info_from_archive_ne_mashup a)
      · intro _ hm
        by_cases hcond : (is_mashup_name (fileStemOr path) &&
            ((get_pack_info_from_archive a).1 == PackType.WorldTemplate)) = true
        · exact eq_of_beq ((Bool.and_eq_true _ _).mp hcond).2
        · rw [if_neg hcond] at hm
          exact absurd hm (get_pack_info_from_archive_ne_mashup a)
    · have hne : (detect_subfolders a).isEmpty = false := by
        simpa [List.isEmpty_iff] using hsubs
      simp only [hne, Bool.not_false, if_true] at hc
      unfold process_multi_pack_archive at hc
      have hne2 : ∀ f : String → PackInfo, ((detect_subfolders a).map f).isEmpty = false :=
        fun f => by cases hd : detect_subfolders a <;> simp_all
      simp only [hne2, Bool.false_eq_true, if_false, List.mem_map] at hc
      obtain ⟨sf, hsf, rfl⟩ := hc
      dsimp only
      constructor
      · intro hm
        by_cases hmn : is_mashup_name (fileStemOr path) = true
        · exact hmn
        · rw [if_neg hmn] at hm
          exact absurd hm (get_pack_info_from_subfolder_ne_mashup a sf)
      · intro hd _
        exact absurd hd hsubs

/-- Witness for C4 amended at the mash-up-named world-template archive. -/
theorem C4_mashup_amended_w :
    is_mashup_name (fileStemOr "/s/A Mashup.mctemplate") = true ∧
    (get_pack_info_from_archive archWT).1 = PackType.WorldTemplate :=
  ⟨(C4_mashup_amended "/s/A Mashup.mctemplate" archWT mashupWtPack (by decide)).1 (by decide),
    (C4_mashup_amended "/s/A Mashup.mctemplate" archWT mashupWtPack (by decide)).2
      (by decide) (by decide)⟩

/-- Whatever branch `process_pack` takes after resolving a destination
base, the recorded destination and output folder name are the base joined
with `display_name ++ type_suffix`. -/
theorem process_pack_dest (s : Settings) (st : MoverState) (pack : PackInfo)
    (sd : Option String) (entries : List ZipEntry) (db : String) (is4 : Bool)
    (hdb : destBaseOf pack s sd = some (db, is4)) :
    (process_pack s st pack sd entries).1.destination =
      joinPath db (pack.name ++ type_suffix pack.pack_type) ∧
    (process_pack s st pack sd entries).1.pack_name =
      pack.name ++ type_suffix pack.pack_type := by
  unfold process_pack
  rw [hdb]
  dsimp only
  by_cases hdry : s.dry_run = true
  · simp [hdry]
  · rw [Bool.not_eq_true] at hdry
    simp only [hdry, Bool.false_eq_true, if_false]
    cases planExtract pack.subfolder entries <;> simp

/-- C9: destination resolution and naming.  BehaviorPack, ResourcePack,
SkinPack and WorldTemplate/MashupPack install under their configured
per-type roots; a SkinPack4D candidate whose source archive lies in the
scan directory installs under its "4D Skin Packs" subfolder; and the
output folder name is always `display_name ++ type_suffix` with the fixed
table " (ADDON)", " (RESOURCE)", " (SKIN)", "" (4D), " (TEMPLATE)",
" (MASHUP)", "" (Unknown). -/
theorem C9_destination_resolution (s : Settings) (st : MoverState) (pack : PackInfo)
    (sd : Option String) (entries : List ZipEntry) :
    (∀ p, pack.pack_type = .BehaviorPack → s.behavior_pack_path = some p →
      (process_pack s st pack sd entries).1.destination =
        joinPath p (pack.name ++ " (ADDON)") ∧
      (process_pack s st pack sd entries).1.pack_name = pack.name ++ " (ADDON)") ∧
    (∀ p, pack.pack_type = .ResourcePack → s.resource_pack_path = some p →
      (process_pack s st pack sd entries).1.destination =
        joinPath p (pack.name ++ " (RESOURCE)") ∧
      (process_pack s st pack sd entries).1.pack_name = pack.name ++ " (RESOURCE)") ∧
    (∀ p, pack.pack_type = .SkinPack → s.skin_pack_path = some p →
      (process_pack s st pack sd entries).1.destination =
        joinPath p (pack.name ++ " (SKIN)") ∧
      (process_pack s st pack sd entries).1.pack_name = pack.name ++ " (SKIN)") ∧
    (∀ p, pack.pack_type = .WorldTemplate → s.world_template_path = some p →
      (process_pack s st pack sd entries).1.destination =
        joinPath p (pack.name ++ " (TEMPLATE)") ∧
      (process_pack s st pack sd entries).1.pack_name = pack.name ++ " (TEMPLATE)") ∧
    (∀ p, pack.pack_type = .MashupPack → s.world_template_path = some p →
      (process_pack s st pack sd entries).1.destination =
        joinPath p (pack.name ++ " (MASHUP)") ∧
      (process_pack s st pack sd entries).1.pack_name = pack.name ++ " (MASHUP)") ∧
    (∀ sc, pack.pack_type = .SkinPack4D → parentStr pack.path = sc →
      (process_pack s st pack sd entries).1.destination =
        joinPath (joinPath sc "4D Skin Packs") pack.name ∧
      (process_pack s st pack sd entries).1.pack_name = pack.name) ∧
    (pack.pack_type = .Unknown →
      (process_pack s st pack sd entries).1.pack_name = pack.name) := by
  refine ⟨?_, ?_, ?_, ?_, ?_, ?_, ?_⟩
  · intro p hpt hpath
    have hdb : destBaseOf pack s sd = some (p, false) := by
      simp [destBaseOf, hpt, get_destination_path, hpath]
    have h := process_pack_dest s st pack sd entries p false hdb
    rw [hpt] at h
    exact h
  · intro p hpt hpath
    have hdb : destBaseOf pack s sd = some (p, false) := by
      simp [destBaseOf, hpt, get_destination_path, hpath]
    have h := process_pack_dest s st pack sd entries p false hdb
    rw [hpt] at h
    exact h
  · intro p hpt hpath
    have hdb : destBaseOf pack s sd = some (p, false) := by
      simp [destBaseOf, hpt, get_destination_path, hpath]
    have h := process_pack_dest s st pack sd entries p false hdb
    rw [hpt] at h
    exact h
  · intro p hpt hpath
    have hdb : destBaseOf pack s sd = some (p, false) := by
      simp [destBaseOf, hpt, get_destination_path, hpath]
    have h := process_pack_dest s st pack sd entries p false hdb
    rw [hpt] at h
    exact h
  · intro p hpt hpath
    have hdb : destBaseOf pack s sd = some (p, false) := by
      simp [destBaseOf, hpt, get_destination_path, hpath]
    have h := process_pack_dest s st pack sd entries p false hdb
    rw [hpt] at h
    exact h
  · intro sc hpt hsc
    have hdb : destBaseOf pack s sd =
        some (joinPath (parentStr pack.path) "4D Skin Packs", true) := by
      simp [destBaseOf, hpt]
    have h := process_pack_dest s st pack sd entries
      (joinPath (parentStr pack.path) "4D Skin Packs") true hdb
    rw [hpt, hsc] at h
    simpa [type_suffix] using h
  · intro hpt
    have hdb : destBaseOf pack s sd = none := by
      simp [destBaseOf, hpt, get_destination_path]
    unfold process_pack
    rw [hdb]

/-- Witness for C9: a configured behavior pack maps to "root" with the
" (ADDON)" suffix, and a 4D pack scanned from "/scans" maps to
"/scans/4D Skin Packs" with no suffix. -/
theorem C9_destination_resolution_w :
    ((process_pack moverSettings cleanState fooPack (some "/scans") plainEntries).1.destination =
        joinPath "root" ("Foo" ++ " (ADDON)") ∧
      (process_pack moverSettings cleanState fooPack (some "/scans") plainEntries).1.pack_name =
        "Foo" ++ " (ADDON)") ∧
    ((process_pack moverSettings cleanState fourDPack (some "/scans") plainEntries).1.destination =
        joinPath (joinPath "/scans" "4D Skin Packs") "Sk" ∧
      (process_pack moverSettings cleanState fourDPack (some "/scans") plainEntries).1.pack_name =
        "Sk") :=
  ⟨(C9_destination_resolution moverSettings cleanState fooPack (some "/scans")
      plainEntries).1 "root" rfl rfl,
    (C9_destination_resolution moverSettings cleanState fourDPack (some "/scans")
      plainEntries).2.2.2.2.2.1 "/scans" rfl (by decide)⟩

/-- C8 counterexample: with the destination folder "root/Foo (ADDON)"
already present, a successful non-dry-run install followed by a rollback
deletes it for good — the folder set of the destination root is not
restored (the install's overwrite removal is not undone). -/
theorem C8_round_trip_cex :
    (process_pack moverSettings preExistingState fooPack (some "/scans") plainEntries).1.success
      = true ∧
    moverSettings.dry_run = false ∧
    "root/Foo (ADDON)" ∈ preExistingState.fs ∧
    "root/Foo (ADDON)" ∉
      (rollback_last moverSettings
        (process_pack moverSettings preExistingState fooPack (some "/scans")
          plainEntries).2).2.fs :=
  ⟨by decide, by decide, by decide, by decide⟩

/-- Rolling back right after a push pops exactly the pushed operation and
removes its destination tree, provided the destination exists and the run
is not dry. -/
theorem rollback_after_push (settings : Settings) (fs : List String)
    (h : List MoveOperation) (op : MoveOperation)
    (hdry : settings.dry_run = false)
    (hmem : op.destination ∈ fs) :
    rollback_last settings ⟨fs, h ++ [op]⟩ =
      (some op, ⟨removeTree fs op.destination, h⟩) := by
  unfold rollback_last
  rw [List.getLast?_concat]
  dsimp only
  rw [hdry]
  simp only [Bool.false_eq_true, if_false]
  rw [List.dropLast_concat]
  have hcont : fs.contains op.destination = true := by simpa using hmem
  rw [hcont]
  simp only [if_true]

/-- C8 amended: when a successful non-dry-run install neither deletes a
superseded old-version folder nor overwrites an already existing
destination (nothing under the computed destination exists beforehand, and
the destination root itself exists), the install appends exactly one entry
to the undo log, and rolling back pops that entry, removes exactly its
recorded destination folder, and restores the filesystem path set to what
it was before the install.  Without those two provisos the round trip can
lose folders, as the counterexample shows. -/
theorem C8_round_trip_amended (settings : Settings) (st : MoverState) (pack : PackInfo)
    (sd : Option String) (entries : List ZipEntry) (db : String) (is4 : Bool)
    (plan : ExtractPlan)
    (hdry : settings.dry_run = false)
    (hdb : destBaseOf pack settings sd = some (db, is4))
    (hplan : planExtract pack.subfolder entries = .ok plan)
    (hold : oldPathOf st pack db is4 = none)
    (hroot : db ∈ st.fs)
    (hfresh : ∀ x ∈ st.fs,
      isUnder (joinPath db (pack.name ++ type_suffix pack.pack_type)) x = false) :
    (process_pack settings st pack sd entries).1.success = true ∧
    (process_pack settings st pack sd entries).2.history =
      st.history ++ [(process_pack settings st pack sd entries).1] ∧
    (rollback_last settings (process_pack settings st pack sd entries).2).1 =
      some (process_pack settings st pack sd entries).1 ∧
    (rollback_last settings (process_pack settings st pack sd entries).2).2.history =
      st.history ∧
    (∀ x, x ∈ (rollback_last settings (process_pack settings st pack sd entries).2).2.fs ↔
      x ∈ st.fs) := by
  have hpp : process_pack settings st pack sd entries =
      ({ source := pack.path,
         destination := joinPath db (pack.name ++ type_suffix pack.pack_type),
         pack_name := pack.name ++ type_suffix pack.pack_type,
         pack_type := pack.pack_type, success := true, error := none,
         is_template_update :=
           if ((pack.pack_type == PackType.WorldTemplate ||
               pack.pack_type == PackType.MashupPack) &&
               st.fs.contains (joinPath db (pack.name ++ type_suffix pack.pack_type)))
           then some true else none,
         skin_pack_4d_path :=
           if is4 then some (joinPath db (pack.name ++ type_suffix pack.pack_type))
           else none,
         deleted_old_path := none },
       { fs := insertAll
           (insertAll
             (removeTree st.fs (joinPath db (pack.name ++ type_suffix pack.pack_type)))
             [db, joinPath db (pack.name ++ type_suffix pack.pack_type)])
           (plan.dirs.map
             (relFull (joinPath db (pack.name ++ type_suffix pack.pack_type))) ++
            plan.files.map (fun f =>
              relFull (joinPath db (pack.name ++ type_suffix pack.pack_type)) f.2)),
         history := st.history ++
           [{ source := pack.path,
              destination := joinPath db (pack.name ++ type_suffix pack.pack_type),
              pack_name := pack.name ++ type_suffix pack.pack_type,
              pack_type := pack.pack_type, success := true, error := none,
              is_template_update :=
                if ((pack.pack_type == PackType.WorldTemplate ||
                    pack.pack_type == PackType.MashupPack) &&
                    st.fs.contains
                      (joinPath db (pack.name ++ type_suffix pack.pack_type)))
                then some true else none,
              skin_pack_4d_path :=
                if is4 then
                  some (joinPath db (pack.name ++ type_suffix pack.pack_type))
                else none,
              deleted_old_path := none }] }) := by
    unfold process_pack
    rw [hdb]
    dsimp only
    rw [hdry, hold, hplan]
    simp only [Bool.false_eq_true, if_false]
  rw [hpp]
  set dest := joinPath db (pack.name ++ type_suffix pack.pack_type) with hdst
  set planned := List.map (relFull dest) plan.dirs ++
      List.map (fun f => relFull dest f.2) plan.files with hpld
  set base := insertAll (removeTree st.fs dest) [db, dest] with hbse
  set fs2 := insertAll base planned with hf2
  have hdmem : dest ∈ fs2 := by
    rw [hf2, hbse]
    exact (mem_insertAll _ _ _).mpr (Or.inl ((mem_insertAll _ _ _).mpr (Or.inr (by simp))))
  set op : MoveOperation :=
    { source := pack.path, destination := dest,
      pack_name := pack.name ++ type_suffix pack.pack_type, pack_type := pack.pack_type,
      success := true, error := none,
      is_template_update :=
        if ((pack.pack_type == PackType.WorldTemplate ||
            pack.pack_type == PackType.MashupPack) && st.fs.contains dest)
        then some true else none,
      skin_pack_4d_path := if is4 then some dest else none,
      deleted_old_path := none } with hop
  have hrb := rollback_after_push settings fs2 st.history op hdry hdmem
  rw [hrb]
  refine ⟨rfl, rfl, rfl, rfl, ?_⟩
  intro x
  dsimp only
  rw [mem_removeTree, hf2, hbse]
  constructor
  · rintro ⟨hx, hnu⟩
    rw [mem_insertAll] at hx
    rcases hx with hx | hpl
    · rw [mem_insertAll] at hx
      rcases hx with hx | hx2
      · exact ((mem_removeTree _ _ _).mp hx).1
      · rcases (by simpa using hx2 : x = db ∨ x = dest) with rfl | rfl
        · exact hroot
        · rw [isUnder_self] at hnu; cases hnu
    · rw [hpld] at hpl
      rcases List.mem_append.mp hpl with hd | hf
      · obtain ⟨c, _, rfl⟩ := List.mem_map.mp hd
        rw [isUnder_relFull] at hnu; cases hnu
      · obtain ⟨f, _, rfl⟩ := List.mem_map.mp hf
        rw [isUnder_relFull] at hnu; cases hnu
  · intro hx
    exact ⟨(mem_insertAll _ _ _).mpr
      (Or.inl ((mem_insertAll _ _ _).mpr
        (Or.inl ((mem_removeTree _ _ _).mpr ⟨hx, hfresh x hx⟩)))),
      hfresh x hx⟩

/-- Witness for C8 amended: installing "Foo" into an empty "root" and
rolling back restores the state; the undo log gains and loses exactly the
one operation. -/
theorem C8_round_trip_amended_w :
    (process_pack moverSettings cleanState fooPack (some "/scans") plainEntries).1.success =
      true ∧
    (process_pack moverSettings cleanState fooPack (some "/scans") plainEntries).2.history =
      cleanState.history ++
        [(process_pack moverSettings cleanState fooPack (some "/scans") plainEntries).1] ∧
    (rollback_last moverSettings
        (process_pack moverSettings cleanState fooPack (some "/scans") plainEntries).2).1 =
      some (process_pack moverSettings cleanState fooPack (some "/scans") plainEntries).1 ∧
    (rollback_last moverSettings
        (process_pack moverSettings cleanState fooPack (some "/scans")
          plainEntries).2).2.history = cleanState.history ∧
    ("root/Foo (ADDON)" ∈
        (rollback_last moverSettings
          (process_pack moverSettings cleanState fooPack (some "/scans")
            plainEntries).2).2.fs ↔
      "root/Foo (ADDON)" ∈ cleanState.fs) :=
  have h := C8_round_trip_amended moverSettings cleanState fooPack (some "/scans")
    plainEntries "root" false ⟨[], [(0, ["a.txt"])]⟩ (by decide) (by decide) (by rfl)
    (by decide) (by decide) (by decide)
  ⟨h.1, h.2.1, h.2.2.1, h.2.2.2.1, h.2.2.2.2 "root/Foo (ADDON)"⟩

end Blocksmith
